import Mathlib

/-!
# Distributed PoSt entry points of `distributed.go`

A shallow embedding of the six exported functions of `distributed.go`
(package `ffi`).  Every function of that file converts its arguments, calls one
routine of the `generated` package, checks the status code of the response and
copies the payload into Go values.

* Go values are modelled by their mathematical content: `uint`/`uint64` by
  `Nat`, `int`/`int64` by `Int` (arithmetic on `int` wraps, see `wrapInt`),
  byte slices by `List Nat`.
* A Go slice over native memory keeps its capacity when it is resliced, so the
  two buffers of the challenge response are modelled by `Slice` (memory up to
  the capacity, plus a length).  Nothing is assumed about how the lengths a
  response announces relate to its buffers: a reslice beyond the capacity
  panics, as in Go.
* A Go call either returns its pair of results or panics: `Result`.
* The routines of package `generated` and the conversion helpers that live in
  other files of package `ffi` are not part of `distributed.go`; they are the
  fields of `Env`, pure functions of their arguments.
* `Exec` pairs the result of a call with the list of native routines it
  invoked.
* The deferred `FilDestroy...Response` / `discard` / `free` calls release
  native memory and have no effect on the returned values; a response is
  modelled as the Go struct read after `resp.Deref()`.  The `Deref()` of the
  nested `VanillaProof` (line 90) is a field of `Env`; the allocation and the
  second `Deref()` of lines 120-121 are modelled by `makeFilPoStProofs` and
  `derefProofs`.
* The allocations of lines 37 and 57-58 ask for no more elements than an
  existing buffer holds and are taken to succeed.
* The last part of the file, `specEnv`, models the absent collaborators the way
  the specification describes them, for the properties that the code of
  `distributed.go` leaves to them.
-/

set_option linter.dupNamespace false

namespace ffi

/-! ## Go scalars and slices -/

/-- Type `abi.SectorNumber` (a `uint64`). -/
abbrev SectorNumber := Nat

/-- Type `abi.ActorID` (a `uint64`). -/
abbrev ActorID := Nat

/-- Type `abi.RegisteredPoStProof` (an `int64`). -/
abbrev RegisteredPoStProof := Int

/-- Type `abi.PoStRandomness` (a byte slice). -/
abbrev PoStRandomness := List Nat

/-- A Go `error` value, identified with its message. -/
structure GoError where
  msg : String
deriving DecidableEq, Repr

/-- Function `errors.New` of `github.com/pkg/errors`. -/
def errors.New (message : String) : GoError := ⟨message⟩

/-- Two's complement wrap-around of a mathematical integer into the 64-bit
range of Go's `int`, from `-2 ^ 63` to `2 ^ 63 - 1`; the constants are `2 ^ 63`
and `2 ^ 64` written out. -/
def wrapInt (x : Int) : Int :=
  (x + 9223372036854775808) % 18446744073709551616 - 9223372036854775808

/-- Conversion `int(x)` of a `uint` value. -/
def intOfUint (x : Nat) : Int := wrapInt (x : Int)

/-- Conversion `uint64(x)` of an unsigned value. -/
def uint64 (x : Nat) : Nat := x % 18446744073709551616

/-- Multiplication of two `int` values. -/
def intMul (a b : Int) : Int := wrapInt (a * b)

/-- Addition of two `int` values. -/
def intAdd (a b : Int) : Int := wrapInt (a + b)

/-- A Go slice of `uint64`: the memory from its first element up to its
capacity, and its length. -/
structure Slice where
  mem : List Nat
  len : Nat
deriving DecidableEq, Repr

/-- Builtin `cap(s)`. -/
def Slice.cap (s : Slice) : Nat := s.mem.length

/-- The elements of the slice, `s[0]` to `s[len(s)-1]`. -/
def Slice.toList (s : Slice) : List Nat := s.mem.take s.len

/-- Slice expression `s[:hi]` for an unsigned `hi`: in range when
`hi <= cap(s)`, a run-time panic (`none`) otherwise. -/
def Slice.upTo (s : Slice) (hi : Nat) : Option Slice :=
  if hi ≤ s.cap then some ⟨s.mem, hi⟩ else none

/-- Slice expression `s[lo:hi]` for `int` bounds: in range when
`0 <= lo <= hi <= cap(s)`, a run-time panic (`none`) otherwise. -/
def Slice.slice (s : Slice) (lo hi : Int) : Option Slice :=
  if 0 ≤ lo ∧ lo ≤ hi ∧ hi ≤ (s.cap : Int) then
    some ⟨s.mem.drop lo.toNat, (hi - lo).toNat⟩
  else none

/-- Index expression `s[i]`: in range when `i < len(s)`. -/
def Slice.index (s : Slice) (i : Nat) : Option Nat :=
  if i < s.len then s.mem[i]? else none

/-- A Go `map[abi.SectorNumber][]uint64`, as a list of entries with pairwise
distinct keys. -/
abbrev GoMap := List (SectorNumber × List Nat)

/-- Assignment `m[k] = v`: an existing entry for `k` is replaced. -/
def GoMap.store (m : GoMap) (k : SectorNumber) (v : List Nat) : GoMap :=
  (k, v) :: m.filter (fun e => e.1 != k)

/-- Lookup `m[k]`, `none` when the key is absent. -/
def GoMap.load (m : GoMap) (k : SectorNumber) : Option (List Nat) :=
  (m.find? (fun e => e.1 == k)).map (fun e => e.2)

/-- Builtin `len(m)`. -/
def GoMap.len (m : GoMap) : Nat := m.length

/-- What a Go call does: it returns its value and its `error` (`none` is the
`nil` error), or it panics. -/
inductive Result (α : Type) where
  | returned (value : α) (err : Option GoError)
  | panicked
deriving DecidableEq, Repr

/-- The native proof routines `distributed.go` calls; the `FilDestroy...`
routines that release a response are left out. -/
inductive NativeRoutine where
  | FilGenerateFallbackSectorChallenges
  | FilGenerateSingleVanillaProof
  | FilGenerateWinningPostWithVanilla
  | FilGenerateWindowPostWithVanilla
  | FilGenerateSingleWindowPostWithVanilla
  | FilMergeWindowPostPartitionProofs
deriving DecidableEq, Repr

/-- A finished call: the native routines it invoked, in order, and what it
did. -/
structure Exec (α : Type) where
  calls : List NativeRoutine
  result : Result α
deriving DecidableEq, Repr

/-! ## Types of `distributed.go` and of the packages it uses -/

/-- Type `FallbackChallenges` (lines 13-16). -/
structure FallbackChallenges where
  Sectors : List SectorNumber
  Challenges : GoMap
deriving DecidableEq, Repr

/-- Type `spproof.PoStProof`, with the two fields lines 258-261 fill. -/
structure PoStProof where
  PoStProof : RegisteredPoStProof
  ProofBytes : List Nat
deriving DecidableEq, Repr

/-- Type `PartitionProof` (line 177), a defined type over `spproof.PoStProof`. -/
structure PartitionProof where
  PoStProof : RegisteredPoStProof
  ProofBytes : List Nat
deriving DecidableEq, Repr

/-- Type `generated.FCPResponseStatus`. -/
inductive FCPResponseStatus where
  | FCPNoError
  | FCPUnclassifiedError
  | FCPCallerError
  | FCPReceiverError
deriving DecidableEq, Repr

/-- Type `generated.FilRegisteredPoStProof` (a C enumeration). -/
abbrev FilRegisteredPoStProof := Int

/-- Type `generated.Fil32ByteArray`. -/
abbrev Fil32ByteArray := List Nat

/-- Type `generated.FilVanillaProof`. -/
structure FilVanillaProof where
  ProofLen : Nat
  ProofPtr : List Nat
deriving DecidableEq, Repr

/-- Type `generated.FilPoStProof`. -/
structure FilPoStProof where
  RegisteredProof : FilRegisteredPoStProof
  ProofLen : Nat
  ProofPtr : List Nat
deriving DecidableEq, Repr

/-- Type `generated.FilPartitionSnarkProof`. -/
structure FilPartitionSnarkProof where
  RegisteredProof : FilRegisteredPoStProof
  ProofLen : Nat
  ProofPtr : List Nat
deriving DecidableEq, Repr

/-- Response of `generated.FilGenerateFallbackSectorChallenges` after
`Deref()`.  The two proof fields are facts of Go's types: the capacity of a
slice is an `int`, so below `2 ^ 63`, and the `uint` field `ChallengesStride`
is below `2 ^ 64`.  Nothing relates `IdsLen` and `ChallengesLen` to the
capacities of the two buffers, nor `ChallengesLen` to
`IdsLen * ChallengesStride`. -/
structure FilGenerateFallbackSectorChallengesResponse where
  ErrorMsg : String
  StatusCode : FCPResponseStatus
  IdsPtr : Slice
  IdsLen : Nat
  ChallengesPtr : Slice
  ChallengesLen : Nat
  ChallengesStride : Nat
  challenges_cap : ChallengesPtr.cap < 2 ^ 63
  stride_uint : ChallengesStride < 2 ^ 64

/-- Response of `generated.FilGenerateSingleVanillaProof` after `Deref()`;
`VanillaProof` is the nested struct before its own `Deref()`. -/
structure FilGenerateSingleVanillaProofResponse where
  ErrorMsg : String
  StatusCode : FCPResponseStatus
  VanillaProof : FilVanillaProof
deriving DecidableEq, Repr

/-- Response of `generated.FilGenerateWinningPostWithVanilla` after the
`Deref()` of line 119; `ProofsPtr` is the native array of proofs, which the
code reads through the `Deref()` of line 121. -/
structure FilGenerateWinningPoStResponse where
  ErrorMsg : String
  StatusCode : FCPResponseStatus
  ProofsLen : Nat
  ProofsPtr : List FilPoStProof
deriving DecidableEq, Repr

/-- Response of `generated.FilGenerateWindowPostWithVanilla` after `Deref()`. -/
structure FilGenerateWindowPoStResponse where
  ErrorMsg : String
  StatusCode : FCPResponseStatus
  Proof : FilPoStProof
deriving DecidableEq, Repr

/-- Response of `generated.FilGenerateSingleWindowPostWithVanilla` after
`Deref()`. -/
structure FilGenerateSingleWindowPoStWithVanillaResponse where
  ErrorMsg : String
  StatusCode : FCPResponseStatus
  PartitionProof : FilPartitionSnarkProof
deriving DecidableEq, Repr

/-- Response of `generated.FilMergeWindowPostPartitionProofs` after `Deref()`. -/
structure FilMergeWindowPoStPartitionProofsResponse where
  ErrorMsg : String
  StatusCode : FCPResponseStatus
  Proof : FilPoStProof
deriving DecidableEq, Repr

/-- Everything `distributed.go` uses without defining it: the conversion
helpers of package `ffi` (with the types `PrivateSectorInfo` and
`generated.FilPrivateReplicaInfo` they convert between) and the native routines
of package `generated`, each a pure function of its arguments.  A helper that
returns `(value, error)` in Go returns `Except GoError value` here.
`derefVanillaProof` is the method `Deref` of `generated.FilVanillaProof`, and
`maxProofsLen` the largest length for which the Go runtime carries out
`make([]generated.FilPoStProof, n)` without a panic. -/
structure Env where
  PrivateSectorInfo : Type
  FilPrivateReplicaInfo : Type
  derefVanillaProof : FilVanillaProof → FilVanillaProof
  maxProofsLen : Nat
  toProverID : ActorID → Except GoError Fil32ByteArray
  toFilRegisteredPoStProof : RegisteredPoStProof → Except GoError FilRegisteredPoStProof
  fromFilRegisteredPoStProof : FilRegisteredPoStProof → Except GoError RegisteredPoStProof
  to32ByteArray : List Nat → Fil32ByteArray
  toFilPrivateReplicaInfo : PrivateSectorInfo → Except GoError FilPrivateReplicaInfo
  toVanillaProofs : List (List Nat) → List FilVanillaProof
  toPartitionProofs : List PartitionProof → Except GoError (List FilPartitionSnarkProof)
  fromFilPoStProofs : List FilPoStProof → Except GoError (List PoStProof)
  fromFilPoStProof : FilPoStProof → Except GoError PoStProof
  copyBytes : List Nat → Nat → List Nat
  FilGenerateFallbackSectorChallenges :
    FilRegisteredPoStProof → Fil32ByteArray → List Nat → Nat → Fil32ByteArray →
      FilGenerateFallbackSectorChallengesResponse
  FilGenerateSingleVanillaProof :
    FilPrivateReplicaInfo → List Nat → Nat → FilGenerateSingleVanillaProofResponse
  FilGenerateWinningPostWithVanilla :
    FilRegisteredPoStProof → Fil32ByteArray → Fil32ByteArray → List FilVanillaProof → Nat →
      FilGenerateWinningPoStResponse
  FilGenerateWindowPostWithVanilla :
    FilRegisteredPoStProof → Fil32ByteArray → Fil32ByteArray → List FilVanillaProof → Nat →
      FilGenerateWindowPoStResponse
  FilGenerateSingleWindowPostWithVanilla :
    FilRegisteredPoStProof → Fil32ByteArray → Fil32ByteArray → List FilVanillaProof → Nat →
      Nat → FilGenerateSingleWindowPoStWithVanillaResponse
  FilMergeWindowPostPartitionProofs :
    FilRegisteredPoStProof → List FilPartitionSnarkProof → Nat →
      FilMergeWindowPoStPartitionProofsResponse

/-! ## The functions of `distributed.go` -/

/-- One iteration of the copy loop (lines 62-66) at index `idx`. -/
def copyStep (ids challenges : Slice) (stride : Int) (out : FallbackChallenges) (idx : Nat) :
    Option FallbackChallenges :=
  match ids.index idx with
  | none => none
  | some secNum =>
    match challenges.slice (intMul (idx : Int) stride) (intMul (intAdd (idx : Int) 1) stride) with
    | none => none
    | some chunk =>
      some ⟨out.Sectors.set idx secNum, out.Challenges.store secNum chunk.toList⟩

/-- The copy loop (lines 58-66): `none` when an iteration panics. -/
def copyLoop (ids challenges : Slice) (idsLen : Nat) (stride : Int) : Option FallbackChallenges :=
  (List.range ids.len).foldlM (copyStep ids challenges stride) ⟨List.replicate idsLen 0, []⟩

/-- Lines 46-68 of `GeneratePoStFallbackSectorChallenges`: what the function
does with the dereferenced response `resp`.  The two reslices of lines 47-48
come before the status check of line 52. -/
def copyChallenges (resp : FilGenerateFallbackSectorChallengesResponse) :
    Result (Option FallbackChallenges) :=
  match resp.IdsPtr.upTo resp.IdsLen with
  | none => .panicked
  | some ids =>
    match resp.ChallengesPtr.upTo resp.ChallengesLen with
    | none => .panicked
    | some challenges =>
      if resp.StatusCode ≠ .FCPNoError then
        .returned none (some (errors.New resp.ErrorMsg))
      else
        match copyLoop ids challenges resp.IdsLen (intOfUint resp.ChallengesStride) with
        | none => .panicked
        | some out => .returned (some out) none

/-- The native call of lines 37-45: the sector ids are converted to `uint64`
and handed over with their count. -/
def challengesResponse (env : Env) (pp : FilRegisteredPoStProof) (proverID : Fil32ByteArray)
    (randomness : PoStRandomness) (sectorIds : List SectorNumber) :
    FilGenerateFallbackSectorChallengesResponse :=
  let secIds := sectorIds.map uint64
  env.FilGenerateFallbackSectorChallenges pp (env.to32ByteArray randomness)
    secIds secIds.length proverID

/-- Function `GeneratePoStFallbackSectorChallenges` (lines 21-69). -/
def GeneratePoStFallbackSectorChallenges (env : Env) (proofType : RegisteredPoStProof)
    (minerID : ActorID) (randomness : PoStRandomness) (sectorIds : List SectorNumber) :
    Exec (Option FallbackChallenges) :=
  match env.toProverID minerID with
  | .error err => ⟨[], .returned none (some err)⟩
  | .ok proverID =>
    match env.toFilRegisteredPoStProof proofType with
    | .error err => ⟨[], .returned none (some err)⟩
    | .ok pp =>
      ⟨[.FilGenerateFallbackSectorChallenges],
        copyChallenges (challengesResponse env pp proverID randomness sectorIds)⟩

/-- Function `GenerateSingleVanillaProof` (lines 71-93). -/
def GenerateSingleVanillaProof (env : Env) (replica : env.PrivateSectorInfo)
    (challange : List Nat) : Exec (Option (List Nat)) :=
  match env.toFilPrivateReplicaInfo replica with
  | .error err => ⟨[], .returned none (some err)⟩
  | .ok rep =>
    let resp := env.FilGenerateSingleVanillaProof rep challange challange.length
    ⟨[.FilGenerateSingleVanillaProof],
      if resp.StatusCode ≠ .FCPNoError then
        .returned none (some (errors.New resp.ErrorMsg))
      else
        let proof := env.derefVanillaProof resp.VanillaProof
        .returned (some (env.copyBytes proof.ProofPtr proof.ProofLen)) none⟩

/-- Builtin `make([]generated.FilPoStProof, n)` (line 120): `n` zero values, or
a run-time panic (`none`) when `n` is beyond what the runtime allocates. -/
def makeFilPoStProofs (env : Env) (n : Nat) : Option (List FilPoStProof) :=
  if n ≤ env.maxProofsLen then some (List.replicate n ⟨0, 0, []⟩) else none

/-- The second `resp.Deref()` (line 121): the elements of the slice `buf` are
read from the native array `native`.  Where `buf` is longer than the array, the
Go code reads memory that is not part of the response; here those elements
keep their zero value. -/
def derefProofs (buf native : List FilPoStProof) : List FilPoStProof :=
  native.take buf.length ++ buf.drop native.length

/-- Lines 119-134 of `GenerateWinningPoStWithVanilla`: what the function does
with the response.  The allocation of line 120 and the second `Deref()` of
line 121 come before the status check of line 125. -/
def copyWinningProofs (env : Env) (resp : FilGenerateWinningPoStResponse) :
    Result (Option (List PoStProof)) :=
  match makeFilPoStProofs env resp.ProofsLen with
  | none => .panicked
  | some buf =>
    let proofsPtr := derefProofs buf resp.ProofsPtr
    if resp.StatusCode ≠ .FCPNoError then
      .returned none (some (errors.New resp.ErrorMsg))
    else
      match env.fromFilPoStProofs proofsPtr with
      | .error err => .returned none (some err)
      | .ok out => .returned (some out) none

/-- The response to the native call of lines 113-118. -/
def winningResponse (env : Env) (pp : FilRegisteredPoStProof) (proverID : Fil32ByteArray)
    (randomness : PoStRandomness) (proofs : List (List Nat)) : FilGenerateWinningPoStResponse :=
  env.FilGenerateWinningPostWithVanilla pp (env.to32ByteArray randomness) proverID
    (env.toVanillaProofs proofs) proofs.length

/-- Function `GenerateWinningPoStWithVanilla` (lines 95-135). -/
def GenerateWinningPoStWithVanilla (env : Env) (proofType : RegisteredPoStProof)
    (minerID : ActorID) (randomness : PoStRandomness) (proofs : List (List Nat)) :
    Exec (Option (List PoStProof)) :=
  match env.toFilRegisteredPoStProof proofType with
  | .error err => ⟨[], .returned none (some err)⟩
  | .ok pp =>
    match env.toProverID minerID with
    | .error err => ⟨[], .returned none (some err)⟩
    | .ok proverID =>
      ⟨[.FilGenerateWinningPostWithVanilla],
        copyWinningProofs env (winningResponse env pp proverID randomness proofs)⟩

/-- Function `GenerateWindowPoStWithVanilla` (lines 137-175); the value
`spproof.PoStProof{}` is `⟨0, []⟩`. -/
def GenerateWindowPoStWithVanilla (env : Env) (proofType : RegisteredPoStProof)
    (minerID : ActorID) (randomness : PoStRandomness) (proofs : List (List Nat)) :
    Exec PoStProof :=
  match env.toFilRegisteredPoStProof proofType with
  | .error err => ⟨[], .returned ⟨0, []⟩ (some err)⟩
  | .ok pp =>
    match env.toProverID minerID with
    | .error err => ⟨[], .returned ⟨0, []⟩ (some err)⟩
    | .ok proverID =>
      let fproofs := env.toVanillaProofs proofs
      let resp := env.FilGenerateWindowPostWithVanilla pp (env.to32ByteArray randomness)
        proverID fproofs proofs.length
      ⟨[.FilGenerateWindowPostWithVanilla],
        if resp.StatusCode ≠ .FCPNoError then
          .returned ⟨0, []⟩ (some (errors.New resp.ErrorMsg))
        else
          match env.fromFilPoStProof resp.Proof with
          | .error err => .returned ⟨0, []⟩ (some err)
          | .ok out => .returned out none⟩

/-- Function `GenerateSinglePartitionWindowPoStWithVanilla` (lines 179-224). -/
def GenerateSinglePartitionWindowPoStWithVanilla (env : Env) (proofType : RegisteredPoStProof)
    (minerID : ActorID) (randomness : PoStRandomness) (proofs : List (List Nat))
    (partitionIndex : Nat) : Exec (Option PartitionProof) :=
  match env.toFilRegisteredPoStProof proofType with
  | .error err => ⟨[], .returned none (some err)⟩
  | .ok pp =>
    match env.toProverID minerID with
    | .error err => ⟨[], .returned none (some err)⟩
    | .ok proverID =>
      let fproofs := env.toVanillaProofs proofs
      let resp := env.FilGenerateSingleWindowPostWithVanilla pp (env.to32ByteArray randomness)
        proverID fproofs proofs.length partitionIndex
      ⟨[.FilGenerateSingleWindowPostWithVanilla],
        if resp.StatusCode ≠ .FCPNoError then
          .returned none (some (errors.New resp.ErrorMsg))
        else
          match env.fromFilRegisteredPoStProof resp.PartitionProof.RegisteredProof with
          | .error err => .returned none (some err)
          | .ok dpp =>
            .returned
              (some ⟨dpp, env.copyBytes resp.PartitionProof.ProofPtr resp.PartitionProof.ProofLen⟩)
              none⟩

/-- Function `MergeWindowPoStPartitionProofs` (lines 226-264). -/
def MergeWindowPoStPartitionProofs (env : Env) (proofType : RegisteredPoStProof)
    (partitionProofs : List PartitionProof) : Exec (Option PoStProof) :=
  match env.toFilRegisteredPoStProof proofType with
  | .error err => ⟨[], .returned none (some err)⟩
  | .ok pp =>
    match env.toPartitionProofs partitionProofs with
    | .error err => ⟨[], .returned none (some err)⟩
    | .ok fproofs =>
      let resp := env.FilMergeWindowPostPartitionProofs pp fproofs fproofs.length
      ⟨[.FilMergeWindowPostPartitionProofs],
        if resp.StatusCode ≠ .FCPNoError then
          .returned none (some (errors.New resp.ErrorMsg))
        else
          match env.fromFilRegisteredPoStProof resp.Proof.RegisteredProof with
          | .error err => .returned none (some err)
          | .ok dpp =>
            .returned (some ⟨dpp, env.copyBytes resp.Proof.ProofPtr resp.Proof.ProofLen⟩) none⟩

/-! ## A concrete environment

`sampleEnv` is a small executable stand-in for the collaborators, used to run
the functions above on concrete inputs: proof types `0` to `9` are registered,
miner IDs below `2 ^ 32` have a prover ID, a partition holds two vanilla proofs
and aggregation is concatenation. -/

/-- Sample `toProverID`. -/
def sampleToProverID (minerID : ActorID) : Except GoError Fil32ByteArray :=
  if minerID < 2 ^ 32 then .ok [minerID % 256, minerID / 256 % 256] else .error ⟨"invalid miner id"⟩

/-- Sample `toFilRegisteredPoStProof`. -/
def sampleToFilRegisteredPoStProof (p : RegisteredPoStProof) :
    Except GoError FilRegisteredPoStProof :=
  if 0 ≤ p ∧ p ≤ 9 then .ok (p + 100) else .error ⟨"no mapping to C proof type"⟩

/-- Sample `fromFilRegisteredPoStProof`. -/
def sampleFromFilRegisteredPoStProof (p : FilRegisteredPoStProof) :
    Except GoError RegisteredPoStProof :=
  if 100 ≤ p ∧ p ≤ 109 then .ok (p - 100) else .error ⟨"no mapping to Go proof type"⟩

/-- Sample `fromFilPoStProof`, following what lines 253-261 do inline. -/
def sampleFromFilPoStProof (src : FilPoStProof) : Except GoError PoStProof :=
  match sampleFromFilRegisteredPoStProof src.RegisteredProof with
  | .error err => .error err
  | .ok pp => .ok ⟨pp, src.ProofPtr.take src.ProofLen⟩

/-- Sample `toPartitionProofs`. -/
def sampleToPartitionProofs (src : List PartitionProof) :
    Except GoError (List FilPartitionSnarkProof) :=
  src.mapM (fun p =>
    match sampleToFilRegisteredPoStProof p.PoStProof with
    | .error err => .error err
    | .ok rp => .ok ⟨rp, p.ProofBytes.length, p.ProofBytes⟩)

/-- Sample challenge derivation: two challenges per sector (depending on the
sector and on its position), the sector ids echoed in the order given; the
challenge buffer holds at most `2 ^ 62` challenges. -/
def sampleChallenges (secIds : List Nat) : FilGenerateFallbackSectorChallengesResponse :=
  let flat := (secIds.enum.flatMap (fun p => [p.2 + 1, 10 * p.1 + p.2])).take (2 ^ 62)
  ⟨"", .FCPNoError, ⟨secIds, 0⟩, secIds.length, ⟨flat, 0⟩, flat.length, 2,
    Nat.lt_of_le_of_lt (List.length_take_le _ _) (by decide), by decide⟩

/-- Sample aggregation of all vanilla proofs: their concatenation. -/
def sampleAggregate (pp : FilRegisteredPoStProof) (fproofs : List FilVanillaProof) :
    FilPoStProof :=
  let bytes := fproofs.flatMap (fun p => p.ProofPtr.take p.ProofLen)
  ⟨pp, bytes.length, bytes⟩

/-- Sample partition proof: the concatenation of the two vanilla proofs of the
partition; an error past the last partition. -/
def samplePartition (pp : FilRegisteredPoStProof) (fproofs : List FilVanillaProof)
    (partitionIndex : Nat) : FilGenerateSingleWindowPoStWithVanillaResponse :=
  if 2 * partitionIndex < fproofs.length then
    let bytes := ((fproofs.drop (2 * partitionIndex)).take 2).flatMap
      (fun p => p.ProofPtr.take p.ProofLen)
    ⟨"", .FCPNoError, ⟨pp, bytes.length, bytes⟩⟩
  else ⟨"partition index out of range", .FCPCallerError, ⟨0, 0, []⟩⟩

/-- Sample merge: the concatenation of the partition proofs. -/
def sampleMerge (pp : FilRegisteredPoStProof) (fproofs : List FilPartitionSnarkProof) :
    FilMergeWindowPoStPartitionProofsResponse :=
  let bytes := fproofs.flatMap (fun p => p.ProofPtr.take p.ProofLen)
  ⟨"", .FCPNoError, ⟨pp, bytes.length, bytes⟩⟩

/-- The sample environment. -/
def sampleEnv : Env where
  PrivateSectorInfo := Nat
  FilPrivateReplicaInfo := Nat
  derefVanillaProof := fun p => p
  maxProofsLen := 2 ^ 31 - 1
  toProverID := sampleToProverID
  toFilRegisteredPoStProof := sampleToFilRegisteredPoStProof
  fromFilRegisteredPoStProof := sampleFromFilRegisteredPoStProof
  to32ByteArray := fun b => b.take 32
  toFilPrivateReplicaInfo := fun r =>
    if r = 0 then .error ⟨"missing replica"⟩ else .ok r
  toVanillaProofs := fun ps => ps.map (fun p => ⟨p.length, p⟩)
  toPartitionProofs := sampleToPartitionProofs
  fromFilPoStProofs := fun ps => ps.mapM sampleFromFilPoStProof
  fromFilPoStProof := sampleFromFilPoStProof
  copyBytes := fun v n => v.take n
  FilGenerateFallbackSectorChallenges := fun _ _ secIds _ _ => sampleChallenges secIds
  FilGenerateSingleVanillaProof := fun rep challenges n =>
    if n = 0 then ⟨"no challenges", .FCPCallerError, ⟨0, []⟩⟩
    else ⟨"", .FCPNoError, ⟨challenges.length + 1, rep :: challenges⟩⟩
  FilGenerateWinningPostWithVanilla := fun pp _ _ fproofs _ =>
    ⟨"", .FCPNoError, 1, [sampleAggregate pp fproofs]⟩
  FilGenerateWindowPostWithVanilla := fun pp _ _ fproofs _ =>
    ⟨"", .FCPNoError, sampleAggregate pp fproofs⟩
  FilGenerateSingleWindowPostWithVanilla := fun pp _ _ fproofs _ partitionIndex =>
    samplePartition pp fproofs partitionIndex
  FilMergeWindowPostPartitionProofs := fun pp fproofs _ => sampleMerge pp fproofs

/-- The sample environment with a native library that reports failure on every
call. -/
def failingEnv : Env :=
  { sampleEnv with
    FilGenerateFallbackSectorChallenges := fun _ _ _ _ _ =>
      ⟨"native failure", .FCPUnclassifiedError, ⟨[], 0⟩, 0, ⟨[], 0⟩, 0, 0,
        by decide, by decide⟩
    FilGenerateSingleVanillaProof := fun _ _ _ =>
      ⟨"native failure", .FCPUnclassifiedError, ⟨0, []⟩⟩
    FilGenerateWinningPostWithVanilla := fun _ _ _ _ _ =>
      ⟨"native failure", .FCPUnclassifiedError, 0, []⟩
    FilGenerateWindowPostWithVanilla := fun _ _ _ _ _ =>
      ⟨"native failure", .FCPUnclassifiedError, ⟨0, 0, []⟩⟩
    FilGenerateSingleWindowPostWithVanilla := fun _ _ _ _ _ _ =>
      ⟨"native failure", .FCPUnclassifiedError, ⟨0, 0, []⟩⟩
    FilMergeWindowPostPartitionProofs := fun _ _ _ =>
      ⟨"native failure", .FCPUnclassifiedError, ⟨0, 0, []⟩⟩ }

/-- The sample environment, with the allocation limit at the largest `int`,
and a native library whose failure responses announce lengths no buffer holds:
the winning routine a count of `2 ^ 63` proofs, the challenge routine `2 ^ 63`
ids. -/
def overlongFailureEnv : Env :=
  { sampleEnv with
    maxProofsLen := 2 ^ 63 - 1
    FilGenerateFallbackSectorChallenges := fun _ _ _ _ _ =>
      ⟨"native failure", .FCPUnclassifiedError, ⟨[], 0⟩, 2 ^ 63, ⟨[], 0⟩, 0, 0,
        by decide, by decide⟩
    FilGenerateWinningPostWithVanilla := fun _ _ _ _ _ =>
      ⟨"native failure", .FCPUnclassifiedError, 2 ^ 63, []⟩ }

/-- The sample environment with a challenge routine that answers every call
with the response `resp`. -/
def answeringEnv (resp : FilGenerateFallbackSectorChallengesResponse) : Env :=
  { sampleEnv with FilGenerateFallbackSectorChallenges := fun _ _ _ _ _ => resp }

/-- A response with status `FCPNoError` that announces one sector and four
challenges with the stride `2 ^ 63`, which is negative as an `int`. -/
def hugeStrideResponse : FilGenerateFallbackSectorChallengesResponse :=
  ⟨"", .FCPNoError, ⟨[7], 0⟩, 1, ⟨[5, 6, 7, 8], 0⟩, 4, 2 ^ 63, by decide, by decide⟩

/-- A response with status `FCPNoError` that announces one sector with stride
two but carries a single challenge, in a buffer of capacity one. -/
def shortBufferResponse : FilGenerateFallbackSectorChallengesResponse :=
  ⟨"", .FCPNoError, ⟨[7], 0⟩, 1, ⟨[5], 0⟩, 1, 2, by decide, by decide⟩

/-- A response with status `FCPNoError`, no challenges and stride zero that
announces `2 ^ 63` ids, more than the capacity of any slice. -/
def overlongIdsResponse : FilGenerateFallbackSectorChallengesResponse :=
  ⟨"", .FCPNoError, ⟨[7], 0⟩, 2 ^ 63, ⟨[], 0⟩, 0, 0, by decide, by decide⟩

/-- A response with status `FCPNoError` and no ids that announces `2 ^ 63`
challenges, more than the capacity of any slice. -/
def overlongChallengesResponse : FilGenerateFallbackSectorChallengesResponse :=
  ⟨"", .FCPNoError, ⟨[], 0⟩, 0, ⟨[5], 0⟩, 2 ^ 63, 2, by decide, by decide⟩

/-! ## Specification vocabulary -/

/-- Chunk `k` of the challenge buffer for stride `S`: the elements at positions
`k * S` to `(k + 1) * S - 1` of the memory behind the slice. -/
def chunkAt (challenges : Slice) (S k : Nat) : List Nat :=
  (challenges.mem.drop (k * S)).take S

/-- What holds of the output under construction once the copy loop has handled
the indices below `n`. -/
structure LoopInv (ids challenges : Slice) (S idsLen n : Nat) (out : FallbackChallenges) :
    Prop where
  sectors_length : out.Sectors.length = idsLen
  sectors_get : ∀ j, j < n → out.Sectors[j]? = ids.mem[j]?
  keys_nodup : (out.Challenges.map Prod.fst).Nodup
  keys_mem : ∀ key, key ∈ out.Challenges.map Prod.fst ↔ key ∈ ids.mem.take n
  load_last : ∀ k, k < n → (∀ j, k < j → j < n → ids.mem[j]? ≠ ids.mem[k]?) →
    ∀ key, ids.mem[k]? = some key → out.Challenges.load key = some (chunkAt challenges S k)
  width : ∀ e ∈ out.Challenges, e.2.length = S
  in_cap : ∀ k, k < n → (k + 1) * S ≤ challenges.cap
  lo_exact : intMul (n : Int) (intOfUint S) = ((n * S : Nat) : Int)

/-! ## The collaborators as the specification describes them

The functions of `distributed.go` leave several properties to code that is not
in that file: the native routines of package `generated` and the conversion
helpers of package `ffi`.  This part models that code from the specification:
what the specification fixes is written out, what it treats as a given
cryptographic primitive or parameter table is a field of `Primitives`. -/

/-- Modelled from the spec: the error kinds of section 7.  The errors of
`distributed.go` carry a message only, so a kind is told by its message. -/
inductive ErrorKind where
  | InvalidInput
  | UnsupportedProofType
  | ReplicaAccessError
  | PartitionIndexOutOfRange
  | ProofAggregationError
deriving DecidableEq, Repr

/-- Modelled from the spec: the message of an error of the given kind (section
7), as a native response carries it in `ErrorMsg` and a helper in its error;
the message of a kind is its name. -/
def ErrorKind.message : ErrorKind → String
  | .InvalidInput => "InvalidInput"
  | .UnsupportedProofType => "UnsupportedProofType"
  | .ReplicaAccessError => "ReplicaAccessError"
  | .PartitionIndexOutOfRange => "PartitionIndexOutOfRange"
  | .ProofAggregationError => "ProofAggregationError"

/-- Modelled from the spec: the status code of a failed native call.  Section 7
makes `InvalidInput` and `PartitionIndexOutOfRange` the caller's responsibility;
every kind is a status other than `FCPNoError`. -/
def ErrorKind.status : ErrorKind → FCPResponseStatus
  | .InvalidInput => .FCPCallerError
  | .PartitionIndexOutOfRange => .FCPCallerError
  | _ => .FCPUnclassifiedError

/-- Modelled from the spec: what the specification takes as given and
`distributed.go` reaches through package `generated` only, namely the
cryptographic primitive library (sections 1 and 6) and the per-proof-type
parameter tables (section 9).  `validProofType` tells the enumerated proof
types (section 3), `hasParameters` those with an entry in the parameter table
(section 7), `proverIDRange` bounds the miner IDs that fit the prover-ID
encoding `encodeProverID` (section 3), `partitionCount` derives the number of
partitions from the proof type and the number of vanilla proofs (section 4.3),
`provePartition` proves one partition and `aggregate` is the aggregation scheme
of the proof type (section 4.4); `none` is a failure of the primitive.  The
derivation of challenges for a non-empty sector list, the vanilla prover and
the winning-PoSt assembly are taken whole. -/
structure Primitives where
  Replica : Type
  validProofType : Int → Bool
  hasParameters : Int → Bool
  proverIDRange : Nat
  encodeProverID : Nat → Fil32ByteArray
  deriveChallenges :
    FilRegisteredPoStProof → Fil32ByteArray → List Nat → Fil32ByteArray →
      FilGenerateFallbackSectorChallengesResponse
  proveVanilla : Replica → List Nat → FilGenerateSingleVanillaProofResponse
  proveWinning :
    FilRegisteredPoStProof → Fil32ByteArray → Fil32ByteArray → List FilVanillaProof →
      FilGenerateWinningPoStResponse
  partitionCount : FilRegisteredPoStProof → Nat → Nat
  provePartition :
    FilRegisteredPoStProof → Fil32ByteArray → Fil32ByteArray → List FilVanillaProof → Nat →
      Option (List Nat)
  aggregate : FilRegisteredPoStProof → List (List Nat) → Option (List Nat)
  maxProofsLen : Nat

/-- Modelled from the spec: helper `toProverID`, absent from `distributed.go`.
Section 3: the miner identity is converted to a fixed-width prover ID; a value
outside the range of the encoding is a hard input error. -/
def specToProverID (prim : Primitives) (minerID : ActorID) : Except GoError Fil32ByteArray :=
  if minerID < prim.proverIDRange then .ok (prim.encodeProverID minerID)
  else .error (errors.New ErrorKind.InvalidInput.message)

/-- Modelled from the spec: helper `toFilRegisteredPoStProof`, absent from
`distributed.go`.  Section 3 has one enumerated `ProofType` for both sides of
the binding, so the native identifier is the Go identifier; section 4.1: an
invalid proof type fails with `InvalidInput`. -/
def specToFilRegisteredPoStProof (prim : Primitives) (p : RegisteredPoStProof) :
    Except GoError FilRegisteredPoStProof :=
  if prim.validProofType p then .ok p else .error (errors.New ErrorKind.InvalidInput.message)

/-- Modelled from the spec: helper `fromFilRegisteredPoStProof`, absent from
`distributed.go`; the converse of `toFilRegisteredPoStProof`. -/
def specFromFilRegisteredPoStProof (prim : Primitives) (p : FilRegisteredPoStProof) :
    Except GoError RegisteredPoStProof :=
  if prim.validProofType p then .ok p else .error (errors.New ErrorKind.InvalidInput.message)

/-- Modelled from the spec: helper `to32ByteArray`, absent from
`distributed.go`.  Section 3: the randomness is a fixed-width seed of 32 bytes;
the helper returns no error in `distributed.go`, so a shorter input is filled
with zeros and a longer one is cut. -/
def specTo32ByteArray (b : List Nat) : Fil32ByteArray :=
  (b ++ List.replicate 32 0).take 32

/-- Modelled from the spec: helper `copyBytes`, absent from `distributed.go`.
Section 3: buffers cross the pipeline by copy; the copy holds the first `n`
bytes of the native buffer. -/
def specCopyBytes (v : List Nat) (n : Nat) : List Nat := v.take n

/-- Modelled from the spec: helper `toVanillaProofs`, absent from
`distributed.go`.  Section 3: a vanilla proof is a byte sequence, handed over
with its length. -/
def specToVanillaProofs (proofs : List (List Nat)) : List FilVanillaProof :=
  proofs.map (fun p => ⟨p.length, p⟩)

/-- Modelled from the spec: helper `toPartitionProofs`, absent from
`distributed.go`.  Section 3: a partition proof is a proof type and bytes; each
is handed over with its converted proof type and the length of its bytes, in
the order given. -/
def specToPartitionProofs (prim : Primitives) :
    List PartitionProof → Except GoError (List FilPartitionSnarkProof)
  | [] => .ok []
  | p :: ps =>
    match specToFilRegisteredPoStProof prim p.PoStProof with
    | .error err => .error err
    | .ok rp =>
      match specToPartitionProofs prim ps with
      | .error err => .error err
      | .ok fps => .ok (⟨rp, p.ProofBytes.length, p.ProofBytes⟩ :: fps)

/-- Modelled from the spec: helper `fromFilPoStProof`, absent from
`distributed.go`.  Section 3: a PoSt proof is a proof type and bytes; the
conversion is the one lines 253-261 write out. -/
def specFromFilPoStProof (prim : Primitives) (src : FilPoStProof) : Except GoError PoStProof :=
  match specFromFilRegisteredPoStProof prim src.RegisteredProof with
  | .error err => .error err
  | .ok pp => .ok ⟨pp, specCopyBytes src.ProofPtr src.ProofLen⟩

/-- Modelled from the spec: helper `fromFilPoStProofs`, absent from
`distributed.go`; `fromFilPoStProof` on every proof, in order. -/
def specFromFilPoStProofs (prim : Primitives) : List FilPoStProof → Except GoError (List PoStProof)
  | [] => .ok []
  | p :: ps =>
    match specFromFilPoStProof prim p with
    | .error err => .error err
    | .ok q =>
      match specFromFilPoStProofs prim ps with
      | .error err => .error err
      | .ok qs => .ok (q :: qs)

/-- Modelled from the spec: the response of a failed call of
`generated.FilGenerateFallbackSectorChallenges`: the kind as message, no ids and
no challenges. -/
def challengesFailure (kind : ErrorKind) : FilGenerateFallbackSectorChallengesResponse :=
  ⟨kind.message, kind.status, ⟨[], 0⟩, 0, ⟨[], 0⟩, 0, 0, by decide, by decide⟩

/-- Modelled from the spec: native routine
`generated.FilGenerateFallbackSectorChallenges`, absent from `distributed.go`.
Section 4.1: an empty sector list fails with `InvalidInput`, a proof type
without an entry in the parameter table with `UnsupportedProofType`; otherwise
the challenges are derived by the primitive.  The empty list is a violated
input constraint and is checked first; the missing table is a failure inside
the derivation. -/
def specFallbackSectorChallenges (prim : Primitives) (pp : FilRegisteredPoStProof)
    (randomness : Fil32ByteArray) (sectorIds : List Nat) (sectorIdsLen : Nat)
    (proverID : Fil32ByteArray) : FilGenerateFallbackSectorChallengesResponse :=
  if (sectorIds.take sectorIdsLen).isEmpty then challengesFailure .InvalidInput
  else if prim.hasParameters pp then
    prim.deriveChallenges pp randomness (sectorIds.take sectorIdsLen) proverID
  else challengesFailure .UnsupportedProofType

/-- Modelled from the spec: partition assembly for every partition, part of
the absent native window routine.  Sections 4.4 and 5: the proofs of the
partitions `0` to `count - 1`, in ascending order of partition index; `none`
when a partition fails. -/
def partitionProofsUpTo (prove : Nat → Option (List Nat)) : Nat → Option (List (List Nat))
  | 0 => some []
  | count + 1 =>
    match partitionProofsUpTo prove count, prove count with
    | some parts, some part => some (parts ++ [part])
    | _, _ => none

/-- Modelled from the spec: native routine
`generated.FilGenerateSingleWindowPostWithVanilla`, absent from
`distributed.go`.  Section 4.3: the proof of exactly one partition, selected
by `partitionIndex`; `PartitionIndexOutOfRange` if the index exceeds the
computed partition count (section 8: index `2` is out of range when two
partitions exist, so the valid indices are those below the count),
`ProofAggregationError` if the combination of the vanilla proofs fails.
Section 3: a partition proof carries its proof type. -/
def specSingleWindowPost (prim : Primitives) (pp : FilRegisteredPoStProof)
    (randomness proverID : Fil32ByteArray) (fproofs : List FilVanillaProof) (fproofsLen : Nat)
    (partitionIndex : Nat) : FilGenerateSingleWindowPoStWithVanillaResponse :=
  if prim.partitionCount pp fproofsLen ≤ partitionIndex then
    ⟨ErrorKind.PartitionIndexOutOfRange.message, ErrorKind.PartitionIndexOutOfRange.status,
      ⟨0, 0, []⟩⟩
  else
    match prim.provePartition pp randomness proverID (fproofs.take fproofsLen) partitionIndex with
    | none =>
      ⟨ErrorKind.ProofAggregationError.message, ErrorKind.ProofAggregationError.status,
        ⟨0, 0, []⟩⟩
    | some bytes => ⟨"", .FCPNoError, ⟨pp, bytes.length, bytes⟩⟩

/-- Modelled from the spec: native routine
`generated.FilGenerateWindowPostWithVanilla`, absent from `distributed.go`.
Section 4.4: it combines the vanilla proofs across all partitions into one
proof, invoking partition assembly for every partition and aggregating per the
aggregation scheme of the proof type; the proof carries its proof type;
`InvalidInput` if the proof counts do not match the expected partition counts,
read here as: the vanilla proofs make up no partition; `ProofAggregationError`
on a partition or aggregation failure. -/
def specWindowPost (prim : Primitives) (pp : FilRegisteredPoStProof)
    (randomness proverID : Fil32ByteArray) (fproofs : List FilVanillaProof) (fproofsLen : Nat) :
    FilGenerateWindowPoStResponse :=
  if prim.partitionCount pp fproofsLen = 0 then
    ⟨ErrorKind.InvalidInput.message, ErrorKind.InvalidInput.status, ⟨0, 0, []⟩⟩
  else
    match partitionProofsUpTo
        (prim.provePartition pp randomness proverID (fproofs.take fproofsLen))
        (prim.partitionCount pp fproofsLen) with
    | none =>
      ⟨ErrorKind.ProofAggregationError.message, ErrorKind.ProofAggregationError.status,
        ⟨0, 0, []⟩⟩
    | some parts =>
      match prim.aggregate pp parts with
      | none =>
        ⟨ErrorKind.ProofAggregationError.message, ErrorKind.ProofAggregationError.status,
          ⟨0, 0, []⟩⟩
      | some bytes => ⟨"", .FCPNoError, ⟨pp, bytes.length, bytes⟩⟩

/-- Modelled from the spec: native routine
`generated.FilMergeWindowPostPartitionProofs`, absent from `distributed.go`.
Section 4.5: `InvalidInput` if the list is empty, `ProofAggregationError` if the
partition proofs are inconsistent (a proof of another type, or bytes the
aggregation scheme rejects); otherwise the aggregate of the partition proofs in
the order given, which for the full ordered set is the proof of the window. -/
def specMergeWindowPost (prim : Primitives) (pp : FilRegisteredPoStProof)
    (fproofs : List FilPartitionSnarkProof) (fproofsLen : Nat) :
    FilMergeWindowPoStPartitionProofsResponse :=
  if (fproofs.take fproofsLen).isEmpty then
    ⟨ErrorKind.InvalidInput.message, ErrorKind.InvalidInput.status, ⟨0, 0, []⟩⟩
  else if (fproofs.take fproofsLen).all (fun p => p.RegisteredProof == pp) then
    match prim.aggregate pp
        ((fproofs.take fproofsLen).map (fun p => p.ProofPtr.take p.ProofLen)) with
    | none =>
      ⟨ErrorKind.ProofAggregationError.message, ErrorKind.ProofAggregationError.status,
        ⟨0, 0, []⟩⟩
    | some bytes => ⟨"", .FCPNoError, ⟨pp, bytes.length, bytes⟩⟩
  else
    ⟨ErrorKind.ProofAggregationError.message, ErrorKind.ProofAggregationError.status,
      ⟨0, 0, []⟩⟩

/-- Modelled from the spec: the collaborators of `distributed.go`, absent from
that file, assembled from the definitions above. -/
def specEnv (prim : Primitives) : Env where
  PrivateSectorInfo := prim.Replica
  FilPrivateReplicaInfo := prim.Replica
  derefVanillaProof := fun p => p
  maxProofsLen := prim.maxProofsLen
  toProverID := specToProverID prim
  toFilRegisteredPoStProof := specToFilRegisteredPoStProof prim
  fromFilRegisteredPoStProof := specFromFilRegisteredPoStProof prim
  to32ByteArray := specTo32ByteArray
  toFilPrivateReplicaInfo := fun r => .ok r
  toVanillaProofs := specToVanillaProofs
  toPartitionProofs := specToPartitionProofs prim
  fromFilPoStProofs := specFromFilPoStProofs prim
  fromFilPoStProof := specFromFilPoStProof prim
  copyBytes := specCopyBytes
  FilGenerateFallbackSectorChallenges := specFallbackSectorChallenges prim
  FilGenerateSingleVanillaProof := fun rep challenges _ => prim.proveVanilla rep challenges
  FilGenerateWinningPostWithVanilla := fun pp randomness proverID fproofs fproofsLen =>
    prim.proveWinning pp randomness proverID (fproofs.take fproofsLen)
  FilGenerateWindowPostWithVanilla := specWindowPost prim
  FilGenerateSingleWindowPostWithVanilla := specSingleWindowPost prim
  FilMergeWindowPostPartitionProofs := specMergeWindowPost prim

/-- Sample primitives: proof types `0` to `9`, all with parameters; miner IDs
below `2 ^ 32`; two vanilla proofs to a partition, a partition proof being
their concatenation; aggregation is concatenation. -/
def samplePrimitives : Primitives where
  Replica := Nat
  validProofType := fun p => decide (0 ≤ p ∧ p ≤ 9)
  hasParameters := fun p => decide (0 ≤ p ∧ p ≤ 9)
  proverIDRange := 2 ^ 32
  encodeProverID := fun m => [m % 256, m / 256 % 256]
  deriveChallenges := fun _ _ secIds _ => sampleChallenges secIds
  proveVanilla := fun rep challenges => ⟨"", .FCPNoError, ⟨challenges.length + 1, rep :: challenges⟩⟩
  proveWinning := fun pp _ _ fproofs => ⟨"", .FCPNoError, 1, [sampleAggregate pp fproofs]⟩
  partitionCount := fun _ n => (n + 1) / 2
  provePartition := fun _ _ _ fproofs i =>
    some (((fproofs.drop (2 * i)).take 2).flatMap (fun p => p.ProofPtr.take p.ProofLen))
  aggregate := fun _ parts => some parts.flatten
  maxProofsLen := 2 ^ 31 - 1

/-! ## Arithmetic of `int`, maps and slices -/

theorem wrapInt_modEq (x : Int) : wrapInt x ≡ x [ZMOD 2 ^ 64] := by
  unfold Int.ModEq wrapInt
  omega

theorem wrapInt_lt (x : Int) : wrapInt x < 2 ^ 63 := by
  unfold wrapInt
  omega

theorem wrapInt_ge (x : Int) : -(2 ^ 63) ≤ wrapInt x := by
  unfold wrapInt
  omega

theorem wrapInt_eq_self {x : Int} (h0 : -(2 ^ 63) ≤ x) (h1 : x < 2 ^ 63) : wrapInt x = x := by
  unfold wrapInt
  omega

theorem wrapInt_congr {a b : Int} (h : a ≡ b [ZMOD 2 ^ 64]) : wrapInt a = wrapInt b := by
  unfold Int.ModEq at h
  unfold wrapInt
  omega

/-- The upper bound of a chunk is congruent to its lower bound plus the
stride. -/
theorem hi_modEq (k st : Int) :
    intMul (intAdd k 1) st ≡ intMul k st + st [ZMOD 2 ^ 64] :=
  calc intMul (intAdd k 1) st ≡ intAdd k 1 * st [ZMOD 2 ^ 64] := wrapInt_modEq _
    _ ≡ (k + 1) * st [ZMOD 2 ^ 64] := (wrapInt_modEq _).mul_right _
    _ = k * st + st := by ring
    _ ≡ intMul k st + st [ZMOD 2 ^ 64] := (wrapInt_modEq _).symm.add_right _

theorem lo_succ_eq_hi (k : Nat) (st : Int) :
    intMul ((k + 1 : Nat) : Int) st = intMul (intAdd (k : Int) 1) st := by
  unfold intMul
  apply wrapInt_congr
  have : ((k + 1 : Nat) : Int) = (k : Int) + 1 := by push_cast; ring
  rw [this]
  exact ((wrapInt_modEq _).mul_right _).symm

/-- A chunk whose bounds are in range holds exactly `S` elements. -/
theorem chunk_width {S : Nat} (hS : S < 2 ^ 64) (k : Int)
    (h0 : 0 ≤ intMul k (intOfUint S))
    (h1 : intMul k (intOfUint S) ≤ intMul (intAdd k 1) (intOfUint S)) :
    intMul (intAdd k 1) (intOfUint S) = intMul k (intOfUint S) + S := by
  have hm : intMul (intAdd k 1) (intOfUint S) % 2 ^ 64
      = (intMul k (intOfUint S) + intOfUint S) % 2 ^ 64 := hi_modEq k (intOfUint S)
  have hl : intMul (intAdd k 1) (intOfUint S) < 2 ^ 63 := wrapInt_lt _
  have hl2 : intMul k (intOfUint S) < 2 ^ 63 := wrapInt_lt _
  have hsl : intOfUint S < 2 ^ 63 := wrapInt_lt _
  have hsg : -(2 ^ 63) ≤ intOfUint S := wrapInt_ge _
  have hsm : intOfUint S % 2 ^ 64 = (S : Int) % 2 ^ 64 := wrapInt_modEq _
  generalize intMul (intAdd k 1) (intOfUint S) = hi at *
  generalize intMul k (intOfUint S) = lo at *
  generalize intOfUint S = st at *
  omega

end ffi
namespace ffi

theorem wrapInt_natCast_of_lt {x : Nat} (h : x < 2 ^ 63) : wrapInt (x : Int) = x := by
  apply wrapInt_eq_self <;> omega

/-- Lower bound of chunk `n` when no product overflows. -/
theorem intMul_exact {n S : Nat} (hS : S < 2 ^ 63) (h : n * S < 2 ^ 63) :
    intMul (n : Int) (intOfUint S) = ((n * S : Nat) : Int) := by
  unfold intMul intOfUint
  rw [wrapInt_natCast_of_lt hS, ← Int.natCast_mul]
  exact wrapInt_natCast_of_lt h

theorem GoMap.keys_store (m : GoMap) (k : SectorNumber) (v : List Nat) :
    (m.store k v).map Prod.fst = k :: (m.map Prod.fst).filter (fun x => x != k) := by
  unfold GoMap.store
  simp only [List.map_cons, List.filter_map]
  rfl

theorem GoMap.load_store_self (m : GoMap) (k : SectorNumber) (v : List Nat) :
    (m.store k v).load k = some v := by
  simp [GoMap.store, GoMap.load]

theorem GoMap.load_filter_ne (m : GoMap) (k key : SectorNumber) (h : k ≠ key) :
    GoMap.load (m.filter (fun e => e.1 != k)) key = GoMap.load m key := by
  unfold GoMap.load
  rw [List.find?_filter]
  have hfun : (fun a : SectorNumber × List Nat =>
      decide ((a.1 != k) = true ∧ (a.1 == key) = true)) = (fun e => e.1 == key) := by
    funext a
    by_cases hkey : a.1 = key
    · have : a.1 ≠ k := by rw [hkey]; exact fun h' => h h'.symm
      simp [hkey, this]
      intro h'
      exact h (by rw [← h'])
    · simp [hkey]
  rw [hfun]

theorem GoMap.load_store_ne (m : GoMap) (k key : SectorNumber) (v : List Nat) (h : k ≠ key) :
    (m.store k v).load key = m.load key := by
  have := GoMap.load_filter_ne m k key h
  unfold GoMap.store
  unfold GoMap.load at this ⊢
  simp [List.find?_cons, h]
  simpa using this

theorem foldlM_range_succ {σ : Type} (f : σ → Nat → Option σ) (init : σ) (n : Nat) :
    (List.range (n + 1)).foldlM f init = ((List.range n).foldlM f init).bind (fun s => f s n) := by
  rw [List.range_succ, List.foldlM_append]
  cases (List.range n).foldlM f init <;> simp [List.foldlM]

/-! ## The copy loop -/

theorem Slice.slice_some {s c : Slice} {lo hi : Int} (h : s.slice lo hi = some c) :
    0 ≤ lo ∧ lo ≤ hi ∧ hi ≤ (s.cap : Int) ∧ c = ⟨s.mem.drop lo.toNat, (hi - lo).toNat⟩ := by
  unfold Slice.slice at h
  split at h
  · rename_i hc
    simp only [Option.some.injEq] at h
    exact ⟨hc.1, hc.2.1, hc.2.2, h.symm⟩
  · simp at h

theorem copyStep_some {ids challenges : Slice} {stride : Int} {out out' : FallbackChallenges}
    {idx : Nat} (h : copyStep ids challenges stride out idx = some out') :
    ∃ secNum chunk, idx < ids.len ∧ ids.mem[idx]? = some secNum ∧
      challenges.slice (intMul (idx : Int) stride) (intMul (intAdd (idx : Int) 1) stride)
        = some chunk ∧
      out' = ⟨out.Sectors.set idx secNum, out.Challenges.store secNum chunk.toList⟩ := by
  unfold copyStep at h
  split at h
  · simp at h
  · rename_i secNum hidx
    split at h
    · simp at h
    · rename_i chunk hchunk
      simp only [Option.some.injEq] at h
      refine ⟨secNum, chunk, ?_, ?_, hchunk, h.symm⟩
      · unfold Slice.index at hidx
        split at hidx
        · assumption
        · simp at hidx
      · unfold Slice.index at hidx
        split at hidx
        · exact hidx
        · simp at hidx

/-- What a successful slice of chunk `n` yields when the lower bound is exact. -/
theorem chunk_of_slice {challenges chunk : Slice} {S n : Nat} (hS : S < 2 ^ 64)
    (hlo : intMul (n : Int) (intOfUint S) = ((n * S : Nat) : Int))
    (h : challenges.slice (intMul (n : Int) (intOfUint S))
      (intMul (intAdd (n : Int) 1) (intOfUint S)) = some chunk) :
    chunk.toList = chunkAt challenges S n ∧ (n + 1) * S ≤ challenges.cap ∧
      intMul ((n + 1 : Nat) : Int) (intOfUint S) = (((n + 1) * S : Nat) : Int) := by
  obtain ⟨h0, h1, h2, hc⟩ := Slice.slice_some h
  have hw := chunk_width hS (n : Int) h0 h1
  rw [hlo] at hw
  have hhi : intMul (intAdd (n : Int) 1) (intOfUint S) = (((n + 1) * S : Nat) : Int) := by
    rw [hw]; push_cast; ring
  rw [hhi] at h2
  rw [hlo, hhi] at hc
  have hcap : (n + 1) * S ≤ challenges.cap := by exact_mod_cast h2
  refine ⟨?_, hcap, ?_⟩
  · subst hc
    unfold Slice.toList chunkAt
    have e1 : ((((n + 1) * S : Nat) : Int) - ((n * S : Nat) : Int)).toNat = S := by
      have : (((n + 1) * S : Nat) : Int) - ((n * S : Nat) : Int) = (S : Int) := by
        push_cast; ring
      rw [this]; simp
    simp only [Int.toNat_ofNat, e1]
  · rw [lo_succ_eq_hi, hhi]

theorem chunkAt_length {challenges : Slice} {S n : Nat} (h : (n + 1) * S ≤ challenges.cap) :
    (chunkAt challenges S n).length = S := by
  unfold chunkAt
  unfold Slice.cap at h
  rw [List.length_take, List.length_drop]
  have : (n + 1) * S = n * S + S := by ring
  omega

theorem LoopInv.init (ids challenges : Slice) (S idsLen : Nat) :
    LoopInv ids challenges S idsLen 0 ⟨List.replicate idsLen 0, []⟩ where
  sectors_length := by simp
  sectors_get := by intro j hj; omega
  keys_nodup := by simp
  keys_mem := by intro key; simp
  load_last := by intro k hk; omega
  width := by intro e he; simp at he
  in_cap := by intro k hk; omega
  lo_exact := by
    unfold intMul
    simp only [Nat.cast_zero, zero_mul]
    rfl

theorem LoopInv.step {ids challenges : Slice} {S n : Nat} {out out' : FallbackChallenges}
    (hS : S < 2 ^ 64) (hinv : LoopInv ids challenges S ids.len n out)
    (hstep : copyStep ids challenges (intOfUint S) out n = some out') :
    LoopInv ids challenges S ids.len (n + 1) out' := by
  obtain ⟨secNum, chunk, hn, hsec, hslice, hout⟩ := copyStep_some hstep
  obtain ⟨hchunk, hcap, hnext⟩ := chunk_of_slice hS hinv.lo_exact hslice
  subst hout
  rw [hchunk]
  refine ⟨?_, ?_, ?_, ?_, ?_, ?_, ?_, hnext⟩
  · simpa using hinv.sectors_length
  · intro j hj
    by_cases hjn : j = n
    · subst hjn
      rw [List.getElem?_set]
      simp [hinv.sectors_length, hn, hsec]
    · simp only
      rw [List.getElem?_set_ne (Ne.symm hjn)]
      exact hinv.sectors_get j (by omega)
  · simp only
    rw [GoMap.keys_store]
    refine List.nodup_cons.mpr ⟨?_, hinv.keys_nodup.filter _⟩
    simp
  · intro key
    simp only
    rw [GoMap.keys_store, List.take_succ, hsec]
    simp only [List.mem_cons, List.mem_filter, List.mem_append, Option.toList_some,
      List.mem_singleton, bne_iff_ne, ne_eq, List.not_mem_nil, or_false]
    rw [hinv.keys_mem key]
    constructor
    · rintro (h | ⟨h, _⟩)
      · exact Or.inr h
      · exact Or.inl h
    · rintro (h | h)
      · by_cases hk : key = secNum
        · exact Or.inl hk
        · exact Or.inr ⟨h, hk⟩
      · exact Or.inl h
  · intro k hk hlast key hkey
    simp only
    by_cases hkn : k = n
    · subst hkn
      rw [hsec] at hkey
      simp only [Option.some.injEq] at hkey
      subst hkey
      exact GoMap.load_store_self _ _ _
    · have hne : secNum ≠ key := by
        intro heq
        apply hlast n (by omega) (by omega)
        rw [hsec, hkey, heq]
      rw [GoMap.load_store_ne _ _ _ _ hne]
      exact hinv.load_last k (by omega) (fun j hj1 hj2 => hlast j hj1 (by omega)) key hkey
  · intro e he
    simp only [GoMap.store, List.mem_cons, List.mem_filter] at he
    rcases he with he | he
    · subst he
      exact chunkAt_length hcap
    · exact hinv.width e he.1
  · intro k hk
    by_cases hkn : k = n
    · subst hkn; exact hcap
    · exact hinv.in_cap k (by omega)

/-- The invariant holds after any number of iterations that did not panic. -/
theorem copyLoop_upto {ids challenges : Slice} {S : Nat} (hS : S < 2 ^ 64) :
    ∀ (n : Nat) (out : FallbackChallenges),
      (List.range n).foldlM (copyStep ids challenges (intOfUint S))
        ⟨List.replicate ids.len 0, []⟩ = some out →
      LoopInv ids challenges S ids.len n out := by
  intro n
  induction n with
  | zero =>
    intro out h
    simp only [List.range_zero, List.foldlM, pure, Option.some.injEq] at h
    subst h
    exact LoopInv.init _ _ _ _
  | succ n ih =>
    intro out h
    rw [foldlM_range_succ] at h
    cases hprev : (List.range n).foldlM (copyStep ids challenges (intOfUint S))
        ⟨List.replicate ids.len 0, []⟩ with
    | none => rw [hprev] at h; simp at h
    | some mid =>
      rw [hprev] at h
      exact LoopInv.step hS (ih mid hprev) h

theorem Slice.slice_natCast (s : Slice) {lo hi : Nat} (h1 : lo ≤ hi) (h2 : hi ≤ s.cap) :
    s.slice (lo : Int) (hi : Int) = some ⟨s.mem.drop lo, hi - lo⟩ := by
  have hc : 0 ≤ (lo : Int) ∧ (lo : Int) ≤ (hi : Int) ∧ (hi : Int) ≤ (s.cap : Int) :=
    ⟨Int.natCast_nonneg lo, Int.ofNat_le.mpr h1, Int.ofNat_le.mpr h2⟩
  have hsub : ((hi : Int) - (lo : Int)).toNat = hi - lo := by omega
  unfold Slice.slice
  rw [if_pos hc, hsub, Int.toNat_ofNat]

theorem copyStep_ok {ids challenges : Slice} {S n bound : Nat} (out : FallbackChallenges)
    (hfit : ids.len ≤ ids.cap) (hn : n < ids.len) (hb : (n + 1) * S ≤ bound)
    (hbc : bound ≤ challenges.cap) (hcap : challenges.cap < 2 ^ 63) :
    ∃ out', copyStep ids challenges (intOfUint S) out n = some out' := by
  have hmul : (n + 1) * S = n * S + S := by ring
  have hS : S < 2 ^ 63 := by omega
  have hlo := intMul_exact hS (show n * S < 2 ^ 63 by omega)
  have hhi : intMul (intAdd (n : Int) 1) (intOfUint S) = (((n + 1) * S : Nat) : Int) := by
    rw [← lo_succ_eq_hi]
    exact intMul_exact hS (by omega)
  have hlt : n < ids.mem.length := by unfold Slice.cap at hfit; omega
  have hidx : ids.index n = some (ids.mem.get ⟨n, hlt⟩) := by
    unfold Slice.index
    rw [if_pos hn]
    exact List.getElem?_eq_getElem _
  have hsl := Slice.slice_natCast challenges (show n * S ≤ (n + 1) * S by omega)
    (show (n + 1) * S ≤ challenges.cap by omega)
  unfold copyStep
  rw [hidx, hlo, hhi, hsl]
  exact ⟨_, rfl⟩

theorem copyLoop_total {ids challenges : Slice} {S bound : Nat}
    (hfit : ids.len ≤ ids.cap) (hb : ids.len * S ≤ bound)
    (hbc : bound ≤ challenges.cap) (hcap : challenges.cap < 2 ^ 63) :
    ∀ n, n ≤ ids.len → ∃ out,
      (List.range n).foldlM (copyStep ids challenges (intOfUint S))
        ⟨List.replicate ids.len 0, []⟩ = some out := by
  intro n
  induction n with
  | zero => intro _; exact ⟨_, rfl⟩
  | succ n ih =>
    intro hn
    obtain ⟨mid, hmid⟩ := ih (by omega)
    have hle : (n + 1) * S ≤ ids.len * S := Nat.mul_le_mul_right S hn
    obtain ⟨out', hout'⟩ := copyStep_ok mid hfit (by omega) (le_trans hle hb) hbc hcap
    refine ⟨out', ?_⟩
    rw [foldlM_range_succ, hmid]
    exact hout'

theorem LoopInv.sectors_eq {ids challenges : Slice} {S : Nat} {out : FallbackChallenges}
    (hinv : LoopInv ids challenges S ids.len ids.len out) :
    out.Sectors = ids.mem.take ids.len := by
  apply List.ext_getElem?
  intro j
  by_cases hj : j < ids.len
  · rw [hinv.sectors_get j hj, List.getElem?_take_of_lt hj]
  · rw [List.getElem?_eq_none (by rw [hinv.sectors_length]; omega),
      List.getElem?_eq_none (by rw [List.length_take]; omega)]

theorem GoMap.load_of_mem_keys {m : GoMap} {key : SectorNumber}
    (h : key ∈ m.map Prod.fst) : ∃ v, m.load key = some v ∧ (key, v) ∈ m := by
  induction m with
  | nil => simp at h
  | cons e m ih =>
    by_cases he : e.1 = key
    · refine ⟨e.2, ?_, ?_⟩
      · simp [GoMap.load, List.find?_cons, he]
      · rw [← he]; exact List.mem_cons_self _ _
    · have h' : key ∈ m.map Prod.fst := by
        simp only [List.map_cons, List.mem_cons] at h
        rcases h with h | h
        · exact absurd h.symm he
        · exact h
      obtain ⟨v, hv, hmem⟩ := ih h'
      refine ⟨v, ?_, List.mem_cons_of_mem _ hmem⟩
      unfold GoMap.load at hv ⊢
      rw [List.find?_cons_of_neg _ (by simpa using he)]
      exact hv

/-! ### The response handler of `GeneratePoStFallbackSectorChallenges` -/

theorem copyChallenges_error (resp : FilGenerateFallbackSectorChallengesResponse)
    (hids : resp.IdsLen ≤ resp.IdsPtr.cap) (hch : resp.ChallengesLen ≤ resp.ChallengesPtr.cap)
    (hst : resp.StatusCode ≠ .FCPNoError) :
    copyChallenges resp = .returned none (some (errors.New resp.ErrorMsg)) := by
  unfold copyChallenges Slice.upTo
  rw [if_pos hids, if_pos hch]
  simp only [if_pos hst]

theorem copyChallenges_loop (resp : FilGenerateFallbackSectorChallengesResponse)
    (hids : resp.IdsLen ≤ resp.IdsPtr.cap) (hch : resp.ChallengesLen ≤ resp.ChallengesPtr.cap)
    (hst : resp.StatusCode = .FCPNoError) :
    copyChallenges resp =
      match copyLoop ⟨resp.IdsPtr.mem, resp.IdsLen⟩ ⟨resp.ChallengesPtr.mem, resp.ChallengesLen⟩
          resp.IdsLen (intOfUint resp.ChallengesStride) with
      | none => .panicked
      | some out => .returned (some out) none := by
  unfold copyChallenges Slice.upTo
  rw [if_pos hids, if_pos hch]
  simp only [hst, ne_eq, not_true_eq_false, if_false]

/-- A reslice beyond the capacity of a buffer panics. -/
theorem copyChallenges_overlong (resp : FilGenerateFallbackSectorChallengesResponse)
    (h : resp.IdsPtr.cap < resp.IdsLen ∨ resp.ChallengesPtr.cap < resp.ChallengesLen) :
    copyChallenges resp = .panicked := by
  unfold copyChallenges Slice.upTo
  by_cases hids : resp.IdsLen ≤ resp.IdsPtr.cap
  · have hch : ¬ resp.ChallengesLen ≤ resp.ChallengesPtr.cap := by omega
    rw [if_pos hids, if_neg hch]
  · rw [if_neg hids]

/-- A call that returns has resliced both buffers within their capacities. -/
theorem copyChallenges_fits {resp : FilGenerateFallbackSectorChallengesResponse}
    {v : Option FallbackChallenges} {err : Option GoError}
    (h : copyChallenges resp = .returned v err) :
    resp.IdsLen ≤ resp.IdsPtr.cap ∧ resp.ChallengesLen ≤ resp.ChallengesPtr.cap := by
  by_contra hfit
  rw [copyChallenges_overlong resp (by omega)] at h
  simp at h

/-- A returned value with a `nil` error comes from the copy loop of a response
with status `FCPNoError`. -/
theorem copyChallenges_nil_error {resp : FilGenerateFallbackSectorChallengesResponse}
    {v : Option FallbackChallenges} (h : copyChallenges resp = .returned v none) :
    resp.StatusCode = .FCPNoError ∧
      ∃ out, v = some out ∧
        copyLoop ⟨resp.IdsPtr.mem, resp.IdsLen⟩ ⟨resp.ChallengesPtr.mem, resp.ChallengesLen⟩
          resp.IdsLen (intOfUint resp.ChallengesStride) = some out := by
  obtain ⟨hids, hch⟩ := copyChallenges_fits h
  by_cases hst : resp.StatusCode = .FCPNoError
  · rw [copyChallenges_loop resp hids hch hst] at h
    refine ⟨hst, ?_⟩
    split at h
    · simp at h
    · rename_i out hout
      simp only [Result.returned.injEq, and_true] at h
      exact ⟨out, h.symm, hout⟩
  · rw [copyChallenges_error resp hids hch hst] at h
    simp at h

/-- A response with a status other than `FCPNoError` yields no artifact,
whether the call returns or panics. -/
theorem copyChallenges_no_artifact {resp : FilGenerateFallbackSectorChallengesResponse}
    (hst : resp.StatusCode ≠ .FCPNoError) (out : FallbackChallenges) (err : Option GoError) :
    copyChallenges resp ≠ .returned (some out) err := by
  intro h
  obtain ⟨hids, hch⟩ := copyChallenges_fits h
  rw [copyChallenges_error resp hids hch hst] at h
  simp at h

theorem copyChallenges_inv {resp : FilGenerateFallbackSectorChallengesResponse}
    {out : FallbackChallenges} (h : copyChallenges resp = .returned (some out) none) :
    LoopInv ⟨resp.IdsPtr.mem, resp.IdsLen⟩ ⟨resp.ChallengesPtr.mem, resp.ChallengesLen⟩
      resp.ChallengesStride resp.IdsLen resp.IdsLen out := by
  obtain ⟨_, out', hout', hloop⟩ := copyChallenges_nil_error h
  simp only [Option.some.injEq] at hout'
  subst hout'
  exact copyLoop_upto resp.stride_uint resp.IdsLen out hloop

theorem copyChallenges_returns {resp : FilGenerateFallbackSectorChallengesResponse}
    (hids : resp.IdsLen ≤ resp.IdsPtr.cap) (hch : resp.ChallengesLen ≤ resp.ChallengesPtr.cap)
    (hst : resp.StatusCode = .FCPNoError)
    (hlen : resp.IdsLen * resp.ChallengesStride ≤ resp.ChallengesLen) :
    ∃ out, copyChallenges resp = .returned (some out) none := by
  rw [copyChallenges_loop resp hids hch hst]
  obtain ⟨out, hout⟩ := @copyLoop_total ⟨resp.IdsPtr.mem, resp.IdsLen⟩
    ⟨resp.ChallengesPtr.mem, resp.ChallengesLen⟩ resp.ChallengesStride resp.ChallengesLen
    hids hlen hch resp.challenges_cap resp.IdsLen (le_refl _)
  refine ⟨out, ?_⟩
  unfold copyLoop
  simp only
  rw [hout]

/-! ### Unfolding `GeneratePoStFallbackSectorChallenges` -/

theorem GeneratePoStFallbackSectorChallenges_of_ok {env : Env} {proofType : RegisteredPoStProof}
    {minerID : ActorID} {proverID : Fil32ByteArray} {pp : FilRegisteredPoStProof}
    (randomness : PoStRandomness) (sectorIds : List SectorNumber)
    (hprover : env.toProverID minerID = .ok proverID)
    (hpp : env.toFilRegisteredPoStProof proofType = .ok pp) :
    GeneratePoStFallbackSectorChallenges env proofType minerID randomness sectorIds =
      ⟨[.FilGenerateFallbackSectorChallenges],
        copyChallenges (challengesResponse env pp proverID randomness sectorIds)⟩ := by
  unfold GeneratePoStFallbackSectorChallenges
  rw [hprover, hpp]

theorem GeneratePoStFallbackSectorChallenges_nil_error {env : Env}
    {proofType : RegisteredPoStProof} {minerID : ActorID} {randomness : PoStRandomness}
    {sectorIds : List SectorNumber} {v : Option FallbackChallenges}
    (h : (GeneratePoStFallbackSectorChallenges env proofType minerID randomness sectorIds).result
      = .returned v none) :
    ∃ proverID pp, env.toProverID minerID = .ok proverID ∧
      env.toFilRegisteredPoStProof proofType = .ok pp ∧
      copyChallenges (challengesResponse env pp proverID randomness sectorIds)
        = .returned v none := by
  unfold GeneratePoStFallbackSectorChallenges at h
  cases hprover : env.toProverID minerID with
  | error e => rw [hprover] at h; simp at h
  | ok proverID =>
    cases hpp : env.toFilRegisteredPoStProof proofType with
    | error e => rw [hprover, hpp] at h; simp at h
    | ok pp =>
      rw [hprover, hpp] at h
      exact ⟨proverID, pp, rfl, rfl, h⟩

theorem chunkAt_eq_of_le {challenges : Slice} {S k bound : Nat}
    (h : (k + 1) * S ≤ bound) :
    chunkAt challenges S k = ((challenges.mem.take bound).drop (k * S)).take S := by
  unfold chunkAt
  have hmul : (k + 1) * S = k * S + S := by ring
  rw [List.drop_take, List.take_take]
  congr 1
  omega

/-- The number of keys of a map whose keys are the distinct elements of `l`. -/
theorem length_of_keys {keys l : List Nat} (hnodup : keys.Nodup)
    (hmem : ∀ x, x ∈ keys ↔ x ∈ l) : keys.length = l.dedup.length := by
  rw [← List.toFinset_card_of_nodup hnodup, ← List.card_toFinset]
  congr 1
  ext x
  simp [hmem x]

theorem dedup_length_lt {l : List Nat} (h : ¬ l.Nodup) : l.dedup.length < l.length := by
  rcases Nat.lt_or_ge l.dedup.length l.length with hlt | hge
  · exact hlt
  · exfalso
    apply h
    have := (List.dedup_sublist l).eq_of_length_le hge
    exact List.dedup_eq_self.mp this

/-! ### Unfolding the five proof functions -/

theorem GenerateSingleVanillaProof_of_ok {env : Env} {replica : env.PrivateSectorInfo}
    {rep : env.FilPrivateReplicaInfo} (challange : List Nat)
    (hrep : env.toFilPrivateReplicaInfo replica = .ok rep) :
    GenerateSingleVanillaProof env replica challange =
      ⟨[.FilGenerateSingleVanillaProof],
        if (env.FilGenerateSingleVanillaProof rep challange challange.length).StatusCode
            ≠ .FCPNoError then
          .returned none (some (errors.New
            (env.FilGenerateSingleVanillaProof rep challange challange.length).ErrorMsg))
        else
          .returned (some (env.copyBytes
            (env.derefVanillaProof (env.FilGenerateSingleVanillaProof rep challange
              challange.length).VanillaProof).ProofPtr
            (env.derefVanillaProof (env.FilGenerateSingleVanillaProof rep challange
              challange.length).VanillaProof).ProofLen)) none⟩ := by
  unfold GenerateSingleVanillaProof
  rw [hrep]

theorem GenerateWinningPoStWithVanilla_of_ok {env : Env} {proofType : RegisteredPoStProof}
    {minerID : ActorID} {proverID : Fil32ByteArray} {pp : FilRegisteredPoStProof}
    (randomness : PoStRandomness) (proofs : List (List Nat))
    (hpp : env.toFilRegisteredPoStProof proofType = .ok pp)
    (hprover : env.toProverID minerID = .ok proverID) :
    GenerateWinningPoStWithVanilla env proofType minerID randomness proofs =
      ⟨[.FilGenerateWinningPostWithVanilla],
        copyWinningProofs env (winningResponse env pp proverID randomness proofs)⟩ := by
  unfold GenerateWinningPoStWithVanilla
  rw [hpp, hprover]

theorem copyWinningProofs_error (env : Env) (resp : FilGenerateWinningPoStResponse)
    (hlen : resp.ProofsLen ≤ env.maxProofsLen) (hst : resp.StatusCode ≠ .FCPNoError) :
    copyWinningProofs env resp = .returned none (some (errors.New resp.ErrorMsg)) := by
  unfold copyWinningProofs makeFilPoStProofs
  rw [if_pos hlen]
  simp only [if_pos hst]

/-- An allocation beyond the limit of the runtime panics. -/
theorem copyWinningProofs_overlong (env : Env) (resp : FilGenerateWinningPoStResponse)
    (hlen : env.maxProofsLen < resp.ProofsLen) :
    copyWinningProofs env resp = .panicked := by
  unfold copyWinningProofs makeFilPoStProofs
  rw [if_neg (by omega)]

theorem copyWinningProofs_fits {env : Env} {resp : FilGenerateWinningPoStResponse}
    {v : Option (List PoStProof)} {err : Option GoError}
    (h : copyWinningProofs env resp = .returned v err) :
    resp.ProofsLen ≤ env.maxProofsLen := by
  by_contra hfit
  rw [copyWinningProofs_overlong env resp (by omega)] at h
  simp at h

/-- A response with a status other than `FCPNoError` yields no artifact,
whether the call returns or panics. -/
theorem copyWinningProofs_no_artifact {env : Env} {resp : FilGenerateWinningPoStResponse}
    (hst : resp.StatusCode ≠ .FCPNoError) (out : List PoStProof) (err : Option GoError) :
    copyWinningProofs env resp ≠ .returned (some out) err := by
  intro h
  rw [copyWinningProofs_error env resp (copyWinningProofs_fits h) hst] at h
  simp at h

theorem copyWinningProofs_nil_error {env : Env} {resp : FilGenerateWinningPoStResponse}
    {v : Option (List PoStProof)} (h : copyWinningProofs env resp = .returned v none) :
    resp.StatusCode = .FCPNoError := by
  by_contra hst
  rw [copyWinningProofs_error env resp (copyWinningProofs_fits h) hst] at h
  simp at h

theorem GenerateWindowPoStWithVanilla_of_ok {env : Env} {proofType : RegisteredPoStProof}
    {minerID : ActorID} {proverID : Fil32ByteArray} {pp : FilRegisteredPoStProof}
    (randomness : PoStRandomness) (proofs : List (List Nat))
    (hpp : env.toFilRegisteredPoStProof proofType = .ok pp)
    (hprover : env.toProverID minerID = .ok proverID) :
    GenerateWindowPoStWithVanilla env proofType minerID randomness proofs =
      ⟨[.FilGenerateWindowPostWithVanilla],
        if (env.FilGenerateWindowPostWithVanilla pp (env.to32ByteArray randomness) proverID
            (env.toVanillaProofs proofs) proofs.length).StatusCode ≠ .FCPNoError then
          .returned ⟨0, []⟩ (some (errors.New
            (env.FilGenerateWindowPostWithVanilla pp (env.to32ByteArray randomness) proverID
              (env.toVanillaProofs proofs) proofs.length).ErrorMsg))
        else
          match env.fromFilPoStProof
            (env.FilGenerateWindowPostWithVanilla pp (env.to32ByteArray randomness) proverID
              (env.toVanillaProofs proofs) proofs.length).Proof with
          | .error err => .returned ⟨0, []⟩ (some err)
          | .ok out => .returned out none⟩ := by
  unfold GenerateWindowPoStWithVanilla
  rw [hpp, hprover]

theorem GenerateSinglePartitionWindowPoStWithVanilla_of_ok {env : Env}
    {proofType : RegisteredPoStProof} {minerID : ActorID} {proverID : Fil32ByteArray}
    {pp : FilRegisteredPoStProof} (randomness : PoStRandomness) (proofs : List (List Nat))
    (partitionIndex : Nat)
    (hpp : env.toFilRegisteredPoStProof proofType = .ok pp)
    (hprover : env.toProverID minerID = .ok proverID) :
    GenerateSinglePartitionWindowPoStWithVanilla env proofType minerID randomness proofs
        partitionIndex =
      ⟨[.FilGenerateSingleWindowPostWithVanilla],
        if (env.FilGenerateSingleWindowPostWithVanilla pp (env.to32ByteArray randomness)
            proverID (env.toVanillaProofs proofs) proofs.length partitionIndex).StatusCode
            ≠ .FCPNoError then
          .returned none (some (errors.New
            (env.FilGenerateSingleWindowPostWithVanilla pp (env.to32ByteArray randomness)
              proverID (env.toVanillaProofs proofs) proofs.length partitionIndex).ErrorMsg))
        else
          match env.fromFilRegisteredPoStProof
            (env.FilGenerateSingleWindowPostWithVanilla pp (env.to32ByteArray randomness)
              proverID (env.toVanillaProofs proofs) proofs.length
              partitionIndex).PartitionProof.RegisteredProof with
          | .error err => .returned none (some err)
          | .ok dpp =>
            .returned (some ⟨dpp, env.copyBytes
              (env.FilGenerateSingleWindowPostWithVanilla pp (env.to32ByteArray randomness)
                proverID (env.toVanillaProofs proofs) proofs.length
                partitionIndex).PartitionProof.ProofPtr
              (env.FilGenerateSingleWindowPostWithVanilla pp (env.to32ByteArray randomness)
                proverID (env.toVanillaProofs proofs) proofs.length
                partitionIndex).PartitionProof.ProofLen⟩) none⟩ := by
  unfold GenerateSinglePartitionWindowPoStWithVanilla
  rw [hpp, hprover]

theorem MergeWindowPoStPartitionProofs_of_ok {env : Env} {proofType : RegisteredPoStProof}
    {partitionProofs : List PartitionProof} {pp : FilRegisteredPoStProof}
    {fproofs : List FilPartitionSnarkProof}
    (hpp : env.toFilRegisteredPoStProof proofType = .ok pp)
    (hfproofs : env.toPartitionProofs partitionProofs = .ok fproofs) :
    MergeWindowPoStPartitionProofs env proofType partitionProofs =
      ⟨[.FilMergeWindowPostPartitionProofs],
        if (env.FilMergeWindowPostPartitionProofs pp fproofs fproofs.length).StatusCode
            ≠ .FCPNoError then
          .returned none (some (errors.New
            (env.FilMergeWindowPostPartitionProofs pp fproofs fproofs.length).ErrorMsg))
        else
          match env.fromFilRegisteredPoStProof
            (env.FilMergeWindowPostPartitionProofs pp fproofs
              fproofs.length).Proof.RegisteredProof with
          | .error err => .returned none (some err)
          | .ok dpp =>
            .returned (some ⟨dpp, env.copyBytes
              (env.FilMergeWindowPostPartitionProofs pp fproofs fproofs.length).Proof.ProofPtr
              (env.FilMergeWindowPostPartitionProofs pp fproofs fproofs.length).Proof.ProofLen⟩)
              none⟩ := by
  unfold MergeWindowPoStPartitionProofs
  rw [hpp, hfproofs]

/-! ### A `nil` error means every conversion succeeded -/

theorem GenerateSingleVanillaProof_nil_error {env : Env} {replica : env.PrivateSectorInfo}
    {challange : List Nat} {v : Option (List Nat)}
    (h : (GenerateSingleVanillaProof env replica challange).result = .returned v none) :
    ∃ rep, env.toFilPrivateReplicaInfo replica = .ok rep := by
  cases hrep : env.toFilPrivateReplicaInfo replica with
  | error e =>
    unfold GenerateSingleVanillaProof at h
    rw [hrep] at h
    simp at h
  | ok rep => exact ⟨rep, rfl⟩

theorem conversions_ok_of_winning {env : Env} {proofType : RegisteredPoStProof}
    {minerID : ActorID} {randomness : PoStRandomness} {proofs : List (List Nat)}
    {v : Option (List PoStProof)}
    (h : (GenerateWinningPoStWithVanilla env proofType minerID randomness proofs).result
      = .returned v none) :
    ∃ pp proverID, env.toFilRegisteredPoStProof proofType = .ok pp ∧
      env.toProverID minerID = .ok proverID := by
  cases hpp : env.toFilRegisteredPoStProof proofType with
  | error e =>
    unfold GenerateWinningPoStWithVanilla at h
    rw [hpp] at h
    simp at h
  | ok pp =>
    cases hprover : env.toProverID minerID with
    | error e =>
      unfold GenerateWinningPoStWithVanilla at h
      rw [hpp, hprover] at h
      simp at h
    | ok proverID => exact ⟨pp, proverID, rfl, rfl⟩

theorem conversions_ok_of_window {env : Env} {proofType : RegisteredPoStProof}
    {minerID : ActorID} {randomness : PoStRandomness} {proofs : List (List Nat)}
    {v : PoStProof}
    (h : (GenerateWindowPoStWithVanilla env proofType minerID randomness proofs).result
      = .returned v none) :
    ∃ pp proverID, env.toFilRegisteredPoStProof proofType = .ok pp ∧
      env.toProverID minerID = .ok proverID := by
  cases hpp : env.toFilRegisteredPoStProof proofType with
  | error e =>
    unfold GenerateWindowPoStWithVanilla at h
    rw [hpp] at h
    simp at h
  | ok pp =>
    cases hprover : env.toProverID minerID with
    | error e =>
      unfold GenerateWindowPoStWithVanilla at h
      rw [hpp, hprover] at h
      simp at h
    | ok proverID => exact ⟨pp, proverID, rfl, rfl⟩

theorem conversions_ok_of_partition {env : Env} {proofType : RegisteredPoStProof}
    {minerID : ActorID} {randomness : PoStRandomness} {proofs : List (List Nat)}
    {partitionIndex : Nat} {v : Option PartitionProof}
    (h : (GenerateSinglePartitionWindowPoStWithVanilla env proofType minerID randomness proofs
      partitionIndex).result = .returned v none) :
    ∃ pp proverID, env.toFilRegisteredPoStProof proofType = .ok pp ∧
      env.toProverID minerID = .ok proverID := by
  cases hpp : env.toFilRegisteredPoStProof proofType with
  | error e =>
    unfold GenerateSinglePartitionWindowPoStWithVanilla at h
    rw [hpp] at h
    simp at h
  | ok pp =>
    cases hprover : env.toProverID minerID with
    | error e =>
      unfold GenerateSinglePartitionWindowPoStWithVanilla at h
      rw [hpp, hprover] at h
      simp at h
    | ok proverID => exact ⟨pp, proverID, rfl, rfl⟩

theorem conversions_ok_of_merge {env : Env} {proofType : RegisteredPoStProof}
    {partitionProofs : List PartitionProof} {v : Option PoStProof}
    (h : (MergeWindowPoStPartitionProofs env proofType partitionProofs).result
      = .returned v none) :
    ∃ pp fproofs, env.toFilRegisteredPoStProof proofType = .ok pp ∧
      env.toPartitionProofs partitionProofs = .ok fproofs := by
  cases hpp : env.toFilRegisteredPoStProof proofType with
  | error e =>
    unfold MergeWindowPoStPartitionProofs at h
    rw [hpp] at h
    simp at h
  | ok pp =>
    cases hfproofs : env.toPartitionProofs partitionProofs with
    | error e =>
      unfold MergeWindowPoStPartitionProofs at h
      rw [hpp, hfproofs] at h
      simp at h
    | ok fproofs => exact ⟨pp, fproofs, rfl, rfl⟩

theorem Slice.upTo_some {s t : Slice} {n : Nat} (h : s.upTo n = some t) :
    n ≤ s.cap ∧ t = ⟨s.mem, n⟩ := by
  unfold Slice.upTo at h
  split at h
  · rename_i hn
    simp only [Option.some.injEq] at h
    exact ⟨hn, h.symm⟩
  · simp at h

/-- The bounds of chunk `idx` are exact and within the first `bound` elements
when the buffer holds `(idx + 1) * S ≤ bound` elements. -/
theorem Slice.slice_chunk (challenges : Slice) {S idx bound : Nat}
    (hb : (idx + 1) * S ≤ bound) (hbc : bound ≤ challenges.cap)
    (hcap : challenges.cap < 2 ^ 63) :
    ∃ chunk, challenges.slice (intMul (idx : Int) (intOfUint S))
        (intMul (intAdd (idx : Int) 1) (intOfUint S)) = some chunk ∧
      chunk.toList = ((challenges.mem.take bound).drop (idx * S)).take S := by
  have hmul : (idx + 1) * S = idx * S + S := by ring
  have hS : S < 2 ^ 63 := by omega
  have hS64 : S < 2 ^ 64 := by omega
  have h1 : idx * S < 2 ^ 63 := by omega
  have h2 : (idx + 1) * S < 2 ^ 63 := by omega
  have h3 : idx * S ≤ (idx + 1) * S := by omega
  have h4 : (idx + 1) * S ≤ challenges.cap := le_trans hb hbc
  have hlo := intMul_exact hS h1
  have hhi : intMul (intAdd (idx : Int) 1) (intOfUint S) = (((idx + 1) * S : Nat) : Int) :=
    (lo_succ_eq_hi idx (intOfUint S)).symm.trans (intMul_exact hS h2)
  have hsl := Slice.slice_natCast challenges h3 h4
  have hslice := (congrArg₂ (Slice.slice challenges) hlo hhi).trans hsl
  refine ⟨_, hslice, ?_⟩
  rw [(chunk_of_slice hS64 hlo hslice).1]
  exact chunkAt_eq_of_le hb

theorem wrapInt_zero : wrapInt 0 = 0 := by
  unfold wrapInt
  omega

theorem wrapInt_wrapInt (x : Int) : wrapInt (wrapInt x) = wrapInt x := by
  unfold wrapInt
  omega

/-- A stride of `2 ^ 63` or more is negative as an `int`. -/
theorem intOfUint_neg {S : Nat} (hS : 2 ^ 63 ≤ S) (hS64 : S < 2 ^ 64) : intOfUint S < 0 := by
  unfold intOfUint wrapInt
  omega

theorem intMul_zero_left (st : Int) : intMul ((0 : Nat) : Int) st = 0 := by
  unfold intMul
  rw [Int.natCast_zero, Int.zero_mul]
  exact wrapInt_zero

theorem intMul_one_left (S : Nat) :
    intMul (intAdd ((0 : Nat) : Int) 1) (intOfUint S) = intOfUint S := by
  have h1 : intAdd ((0 : Nat) : Int) 1 = 1 := by
    unfold intAdd
    rw [Int.natCast_zero, Int.zero_add]
    unfold wrapInt
    omega
  rw [h1]
  unfold intMul
  rw [Int.one_mul]
  exact wrapInt_wrapInt _

theorem Slice.slice_none_of_lt (s : Slice) {lo hi : Int} (h : hi < lo) :
    s.slice lo hi = none := by
  unfold Slice.slice
  rw [if_neg]
  intro hc
  exact absurd hc.2.1 (not_le.mpr h)

theorem copyStep_slice_none {ids challenges : Slice} {stride : Int} {idx : Nat}
    (out : FallbackChallenges)
    (h : challenges.slice (intMul (idx : Int) stride) (intMul (intAdd (idx : Int) 1) stride)
      = none) :
    copyStep ids challenges stride out idx = none := by
  unfold copyStep
  cases ids.index idx with
  | none => rfl
  | some secNum =>
    simp only
    rw [h]

/-- The loop panics in its first iteration when the stride is negative as an
`int`. -/
theorem copyLoop_negative_stride {ids challenges : Slice} {S : Nat} (idsLen : Nat)
    (hn : 0 < ids.len) (hS : 2 ^ 63 ≤ S) (hS64 : S < 2 ^ 64) :
    copyLoop ids challenges idsLen (intOfUint S) = none := by
  have hneg := intOfUint_neg hS hS64
  have hslice : challenges.slice (intMul ((0 : Nat) : Int) (intOfUint S))
      (intMul (intAdd ((0 : Nat) : Int) 1) (intOfUint S)) = none := by
    apply Slice.slice_none_of_lt
    rw [intMul_zero_left, intMul_one_left]
    exact hneg
  have hstep : ∀ out, copyStep ids challenges (intOfUint S) out 0 = none :=
    fun out => copyStep_slice_none out hslice
  obtain ⟨m, hm⟩ : ∃ m, ids.len = m + 1 := ⟨ids.len - 1, by omega⟩
  unfold copyLoop
  rw [hm, List.range_succ_eq_map, List.foldlM_cons, hstep]
  rfl

/-! ## The collaborators of the specification: what the six functions return -/

theorem specToFilRegisteredPoStProof_valid {prim : Primitives} {p : RegisteredPoStProof}
    (h : prim.validProofType p = true) : specToFilRegisteredPoStProof prim p = .ok p := by
  unfold specToFilRegisteredPoStProof
  rw [if_pos h]

theorem specToFilRegisteredPoStProof_invalid {prim : Primitives} {p : RegisteredPoStProof}
    (h : ¬ prim.validProofType p = true) :
    specToFilRegisteredPoStProof prim p = .error (errors.New ErrorKind.InvalidInput.message) := by
  unfold specToFilRegisteredPoStProof
  rw [if_neg h]

theorem specToFilRegisteredPoStProof_ok {prim : Primitives} {p : RegisteredPoStProof}
    {pp : FilRegisteredPoStProof} (h : specToFilRegisteredPoStProof prim p = .ok pp) :
    prim.validProofType p = true ∧ pp = p := by
  by_cases hv : prim.validProofType p = true
  · rw [specToFilRegisteredPoStProof_valid hv] at h
    simp only [Except.ok.injEq] at h
    exact ⟨hv, h.symm⟩
  · rw [specToFilRegisteredPoStProof_invalid hv] at h
    cases h

theorem specFromFilRegisteredPoStProof_valid {prim : Primitives} {p : FilRegisteredPoStProof}
    (h : prim.validProofType p = true) : specFromFilRegisteredPoStProof prim p = .ok p := by
  unfold specFromFilRegisteredPoStProof
  rw [if_pos h]

theorem specToProverID_inRange {prim : Primitives} {m : ActorID} (h : m < prim.proverIDRange) :
    specToProverID prim m = .ok (prim.encodeProverID m) := by
  unfold specToProverID
  rw [if_pos h]

theorem specToProverID_outOfRange {prim : Primitives} {m : ActorID}
    (h : ¬ m < prim.proverIDRange) :
    specToProverID prim m = .error (errors.New ErrorKind.InvalidInput.message) := by
  unfold specToProverID
  rw [if_neg h]

theorem specToProverID_ok {prim : Primitives} {m : ActorID} {proverID : Fil32ByteArray}
    (h : specToProverID prim m = .ok proverID) :
    m < prim.proverIDRange ∧ proverID = prim.encodeProverID m := by
  by_cases hr : m < prim.proverIDRange
  · rw [specToProverID_inRange hr] at h
    simp only [Except.ok.injEq] at h
    exact ⟨hr, h.symm⟩
  · rw [specToProverID_outOfRange hr] at h
    cases h

theorem specToVanillaProofs_take (proofs : List (List Nat)) :
    (specToVanillaProofs proofs).take proofs.length = specToVanillaProofs proofs := by
  apply List.take_of_length_le
  unfold specToVanillaProofs
  rw [List.length_map]

theorem specCopyBytes_length (v : List Nat) : specCopyBytes v v.length = v := by
  unfold specCopyBytes
  exact List.take_length v

theorem ErrorKind.status_ne (kind : ErrorKind) : kind.status ≠ .FCPNoError := by
  cases kind <;> decide

/-- With an empty sector list the challenge routine of the specification
answers `InvalidInput`, and the function returns that error. -/
theorem copyChallenges_challengesFailure (kind : ErrorKind) :
    copyChallenges (challengesFailure kind)
      = .returned none (some (errors.New kind.message)) :=
  copyChallenges_error (challengesFailure kind) (Nat.le_refl 0) (Nat.le_refl 0)
    (ErrorKind.status_ne kind)

/-- What `GenerateWindowPoStWithVanilla` returns with the collaborators of the
specification, for an enumerated proof type and a miner ID in range. -/
theorem GenerateWindowPoStWithVanilla_spec (prim : Primitives) {P : RegisteredPoStProof}
    {m : ActorID} (r : PoStRandomness) (proofs : List (List Nat))
    (hv : prim.validProofType P = true) (hm : m < prim.proverIDRange) :
    (GenerateWindowPoStWithVanilla (specEnv prim) P m r proofs).result =
      if prim.partitionCount P proofs.length = 0 then
        .returned ⟨0, []⟩ (some (errors.New ErrorKind.InvalidInput.message))
      else
        match partitionProofsUpTo
            (prim.provePartition P (specTo32ByteArray r) (prim.encodeProverID m)
              (specToVanillaProofs proofs))
            (prim.partitionCount P proofs.length) with
        | none => .returned ⟨0, []⟩ (some (errors.New ErrorKind.ProofAggregationError.message))
        | some parts =>
          match prim.aggregate P parts with
          | none =>
            .returned ⟨0, []⟩ (some (errors.New ErrorKind.ProofAggregationError.message))
          | some bytes => .returned ⟨P, bytes⟩ none := by
  have hpp : (specEnv prim).toFilRegisteredPoStProof P = .ok P :=
    specToFilRegisteredPoStProof_valid hv
  have hprover : (specEnv prim).toProverID m = .ok (prim.encodeProverID m) :=
    specToProverID_inRange hm
  rw [GenerateWindowPoStWithVanilla_of_ok r proofs hpp hprover]
  simp only [specEnv, specWindowPost, specToVanillaProofs_take]
  by_cases hc : prim.partitionCount P proofs.length = 0
  · simp only [if_pos hc]
    rfl
  · simp only [if_neg hc]
    cases partitionProofsUpTo
        (prim.provePartition P (specTo32ByteArray r) (prim.encodeProverID m)
          (specToVanillaProofs proofs))
        (prim.partitionCount P proofs.length) with
    | none => rfl
    | some parts =>
      simp only
      cases prim.aggregate P parts with
      | none => rfl
      | some bytes =>
        simp only [ne_eq, not_true_eq_false, if_false, specFromFilPoStProof,
          specFromFilRegisteredPoStProof_valid hv, specCopyBytes_length]

/-- What `GenerateSinglePartitionWindowPoStWithVanilla` returns with the
collaborators of the specification, for an enumerated proof type and a miner ID
in range. -/
theorem GenerateSinglePartitionWindowPoStWithVanilla_spec (prim : Primitives)
    {P : RegisteredPoStProof} {m : ActorID} (r : PoStRandomness) (proofs : List (List Nat))
    (i : Nat) (hv : prim.validProofType P = true) (hm : m < prim.proverIDRange) :
    (GenerateSinglePartitionWindowPoStWithVanilla (specEnv prim) P m r proofs i).result =
      if prim.partitionCount P proofs.length ≤ i then
        .returned none (some (errors.New ErrorKind.PartitionIndexOutOfRange.message))
      else
        match prim.provePartition P (specTo32ByteArray r) (prim.encodeProverID m)
            (specToVanillaProofs proofs) i with
        | none => .returned none (some (errors.New ErrorKind.ProofAggregationError.message))
        | some bytes => .returned (some ⟨P, bytes⟩) none := by
  have hpp : (specEnv prim).toFilRegisteredPoStProof P = .ok P :=
    specToFilRegisteredPoStProof_valid hv
  have hprover : (specEnv prim).toProverID m = .ok (prim.encodeProverID m) :=
    specToProverID_inRange hm
  rw [GenerateSinglePartitionWindowPoStWithVanilla_of_ok r proofs i hpp hprover]
  simp only [specEnv, specSingleWindowPost, specToVanillaProofs_take]
  by_cases hc : prim.partitionCount P proofs.length ≤ i
  · simp only [if_pos hc]
    rfl
  · simp only [if_neg hc]
    cases prim.provePartition P (specTo32ByteArray r) (prim.encodeProverID m)
        (specToVanillaProofs proofs) i with
    | none => rfl
    | some bytes =>
      simp only [ne_eq, not_true_eq_false, if_false,
        specFromFilRegisteredPoStProof_valid hv, specCopyBytes_length]

theorem specToPartitionProofs_valid (prim : Primitives) (parts : List PartitionProof)
    (h : ∀ p ∈ parts, prim.validProofType p.PoStProof = true) :
    specToPartitionProofs prim parts
      = .ok (parts.map (fun p => ⟨p.PoStProof, p.ProofBytes.length, p.ProofBytes⟩)) := by
  induction parts with
  | nil => rfl
  | cons p ps ih =>
    unfold specToPartitionProofs
    rw [specToFilRegisteredPoStProof_valid (h p (List.mem_cons_self _ _)),
      ih (fun q hq => h q (List.mem_cons_of_mem _ hq))]
    rfl

theorem specToPartitionProofs_ok {prim : Primitives} {parts : List PartitionProof}
    {fps : List FilPartitionSnarkProof} (h : specToPartitionProofs prim parts = .ok fps) :
    ∀ p ∈ parts, prim.validProofType p.PoStProof = true := by
  induction parts generalizing fps with
  | nil => intro p hp; cases hp
  | cons q qs ih =>
    unfold specToPartitionProofs at h
    by_cases hv : prim.validProofType q.PoStProof = true
    · rw [specToFilRegisteredPoStProof_valid hv] at h
      cases hrest : specToPartitionProofs prim qs with
      | error e =>
        rw [hrest] at h
        cases h
      | ok fqs =>
        intro p hp
        rcases List.mem_cons.mp hp with hpq | hpqs
        · rw [hpq]; exact hv
        · exact ih hrest p hpqs
    · rw [specToFilRegisteredPoStProof_invalid hv] at h
      cases h

theorem all_registeredProof_map (P : RegisteredPoStProof) (parts : List PartitionProof) :
    (parts.map (fun p => (⟨p.PoStProof, p.ProofBytes.length, p.ProofBytes⟩ :
      FilPartitionSnarkProof))).all (fun p => p.RegisteredProof == P)
      = parts.all (fun p => p.PoStProof == P) := by
  induction parts with
  | nil => rfl
  | cons q qs ih =>
    simp only [List.map_cons, List.all_cons]
    rw [ih]

/-- What `MergeWindowPoStPartitionProofs` returns with the collaborators of the
specification, for enumerated proof types. -/
theorem MergeWindowPoStPartitionProofs_spec (prim : Primitives) {P : RegisteredPoStProof}
    (parts : List PartitionProof) (hv : prim.validProofType P = true)
    (hparts : ∀ p ∈ parts, prim.validProofType p.PoStProof = true) :
    (MergeWindowPoStPartitionProofs (specEnv prim) P parts).result =
      if parts.isEmpty then
        .returned none (some (errors.New ErrorKind.InvalidInput.message))
      else if parts.all (fun p => p.PoStProof == P) then
        match prim.aggregate P (parts.map (fun p => p.ProofBytes)) with
        | none => .returned none (some (errors.New ErrorKind.ProofAggregationError.message))
        | some bytes => .returned (some ⟨P, bytes⟩) none
      else .returned none (some (errors.New ErrorKind.ProofAggregationError.message)) := by
  have hpp : (specEnv prim).toFilRegisteredPoStProof P = .ok P :=
    specToFilRegisteredPoStProof_valid hv
  have hfps : (specEnv prim).toPartitionProofs parts
      = .ok (parts.map (fun p => ⟨p.PoStProof, p.ProofBytes.length, p.ProofBytes⟩)) :=
    specToPartitionProofs_valid prim parts hparts
  have hbytes : (parts.map (fun p => (⟨p.PoStProof, p.ProofBytes.length, p.ProofBytes⟩ :
      FilPartitionSnarkProof))).map (fun p => p.ProofPtr.take p.ProofLen)
      = parts.map (fun p => p.ProofBytes) := by
    rw [List.map_map]
    apply List.map_congr_left
    intro p _
    exact List.take_length p.ProofBytes
  have hall : (parts.map (fun p => (⟨p.PoStProof, p.ProofBytes.length, p.ProofBytes⟩ :
      FilPartitionSnarkProof))).all (fun p => p.RegisteredProof == P)
      = parts.all (fun p => p.PoStProof == P) := by
    exact all_registeredProof_map P parts
  have hempty : (parts.map (fun p => (⟨p.PoStProof, p.ProofBytes.length, p.ProofBytes⟩ :
      FilPartitionSnarkProof))).isEmpty = parts.isEmpty := by
    cases parts <;> rfl
  rw [MergeWindowPoStPartitionProofs_of_ok hpp hfps]
  simp only [specEnv, specMergeWindowPost, List.take_length, hbytes, hall, hempty]
  by_cases he : parts.isEmpty = true
  · simp only [if_pos he]
    rfl
  · simp only [if_neg he]
    by_cases ha : parts.all (fun p => p.PoStProof == P) = true
    · simp only [if_pos ha]
      cases prim.aggregate P (parts.map (fun p => p.ProofBytes)) with
      | none => rfl
      | some bytes =>
        simp only [ne_eq, not_true_eq_false, if_false,
          specFromFilRegisteredPoStProof_valid hv, specCopyBytes_length]
    · simp only [if_neg ha]
      rfl

theorem partitionProofsUpTo_some {prove : Nat → Option (List Nat)} :
    ∀ (n : Nat) (l : List (List Nat)), partitionProofsUpTo prove n = some l →
      l.length = n ∧ ∀ i, i < n → prove i = l[i]? := by
  intro n
  induction n with
  | zero =>
    intro l h
    unfold partitionProofsUpTo at h
    simp only [Option.some.injEq] at h
    subst h
    exact ⟨rfl, fun i hi => absurd hi (Nat.not_lt_zero i)⟩
  | succ n ih =>
    intro l h
    unfold partitionProofsUpTo at h
    cases hparts : partitionProofsUpTo prove n with
    | none => rw [hparts] at h; cases h
    | some parts =>
      cases hpart : prove n with
      | none => rw [hparts, hpart] at h; cases h
      | some part =>
        rw [hparts, hpart] at h
        simp only [Option.some.injEq] at h
        subst h
        obtain ⟨hlen, hget⟩ := ih parts hparts
        refine ⟨by rw [List.length_append, hlen]; rfl, ?_⟩
        intro i hi
        by_cases hin : i < n
        · rw [List.getElem?_append_left (by omega)]
          exact hget i hin
        · have hieq : i = parts.length := by omega
          subst hieq
          rw [List.getElem?_append_right (le_refl _), Nat.sub_self, hlen, hpart]
          rfl

theorem partitionProofsUpTo_of_get {prove : Nat → Option (List Nat)} (l : List (List Nat)) :
    (∀ i, i < l.length → prove i = l[i]?) → partitionProofsUpTo prove l.length = some l := by
  induction l using List.reverseRecOn with
  | nil => intro _; rfl
  | append_singleton ps p ih =>
    intro h
    have hps : partitionProofsUpTo prove ps.length = some ps := by
      apply ih
      intro i hi
      rw [h i (by rw [List.length_append]; omega), List.getElem?_append_left hi]
    have hp : prove ps.length = some p := by
      rw [h ps.length (by rw [List.length_append]; exact Nat.lt_succ_self _),
        List.getElem?_append_right (le_refl _), Nat.sub_self]
      rfl
    have hlen : (ps ++ [p]).length = ps.length + 1 := by
      rw [List.length_append]
      rfl
    rw [hlen]
    unfold partitionProofsUpTo
    rw [hps, hp]

/-! ## Claims about `GeneratePoStFallbackSectorChallenges` -/

/-- C2. After a successful call of `GeneratePoStFallbackSectorChallenges`, every
sector listed in the returned `Sectors` has an entry in the returned
`Challenges` map, and that entry holds exactly `ChallengesStride` challenges,
the stride the native response reports. -/
theorem challenges_per_sector (env : Env) (proofType : RegisteredPoStProof)
    (minerID : ActorID) (randomness : PoStRandomness) (sectorIds : List SectorNumber)
    (proverID : Fil32ByteArray) (pp : FilRegisteredPoStProof)
    (hprover : env.toProverID minerID = .ok proverID)
    (hpp : env.toFilRegisteredPoStProof proofType = .ok pp)
    (out : FallbackChallenges)
    (hok : (GeneratePoStFallbackSectorChallenges env proofType minerID randomness
      sectorIds).result = .returned (some out) none) :
    ∀ sec ∈ out.Sectors, ∃ chunk, out.Challenges.load sec = some chunk ∧
      chunk.length
        = (challengesResponse env pp proverID randomness sectorIds).ChallengesStride := by
  rw [GeneratePoStFallbackSectorChallenges_of_ok randomness sectorIds hprover hpp] at hok
  have hinv := copyChallenges_inv hok
  intro sec hsec
  rw [hinv.sectors_eq] at hsec
  obtain ⟨chunk, hload, hmem⟩ := GoMap.load_of_mem_keys ((hinv.keys_mem sec).mpr hsec)
  exact ⟨chunk, hload, hinv.width _ hmem⟩

/-- Witness for C2: sectors `[3, 4, 3]` in the sample environment, at the
listed sector `4`. -/
theorem challenges_per_sector_witness :
    (GeneratePoStFallbackSectorChallenges sampleEnv 3 1000 (List.replicate 32 0)
        [3, 4, 3]).result = .returned (some ⟨[3, 4, 3], [(3, [4, 23]), (4, [5, 14])]⟩) none ∧
      ∃ chunk, GoMap.load [(3, [4, 23]), (4, [5, 14])] 4 = some chunk ∧ chunk.length = 2 :=
  ⟨by decide,
    challenges_per_sector sampleEnv 3 1000 (List.replicate 32 0) [3, 4, 3] [232, 3] 103
      rfl rfl ⟨[3, 4, 3], [(3, [4, 23]), (4, [5, 14])]⟩ (by decide) 4 (by decide)⟩

/-- Counterexample to C9 as stated: four responses with status `FCPNoError` on
which `GeneratePoStFallbackSectorChallenges` panics, so that no `Sectors` and
no `Challenges` are returned: a stride of `2 ^ 63` (negative as an `int`), a
challenge buffer shorter than `IdsLen * ChallengesStride`, and an `IdsLen` and a
`ChallengesLen` beyond the capacity of any slice. -/
theorem sectors_and_chunks_counterexample :
    (hugeStrideResponse.StatusCode = .FCPNoError ∧
      challengesResponse (answeringEnv hugeStrideResponse) 103 [232, 3] (List.replicate 32 0) [7]
        = hugeStrideResponse ∧
      (GeneratePoStFallbackSectorChallenges (answeringEnv hugeStrideResponse) 3 1000
        (List.replicate 32 0) [7]).result = .panicked) ∧
    (shortBufferResponse.StatusCode = .FCPNoError ∧
      (GeneratePoStFallbackSectorChallenges (answeringEnv shortBufferResponse) 3 1000
        (List.replicate 32 0) [7]).result = .panicked) ∧
    (overlongIdsResponse.StatusCode = .FCPNoError ∧
      (GeneratePoStFallbackSectorChallenges (answeringEnv overlongIdsResponse) 3 1000
        (List.replicate 32 0) [7]).result = .panicked) ∧
    (overlongChallengesResponse.StatusCode = .FCPNoError ∧
      (GeneratePoStFallbackSectorChallenges (answeringEnv overlongChallengesResponse) 3 1000
        (List.replicate 32 0) [7]).result = .panicked) ∧
    ¬ ∃ out, (GeneratePoStFallbackSectorChallenges (answeringEnv hugeStrideResponse) 3 1000
        (List.replicate 32 0) [7]).result = .returned (some out) none ∧ out.Sectors = [7] := by
  have hhuge : (GeneratePoStFallbackSectorChallenges (answeringEnv hugeStrideResponse) 3 1000
      (List.replicate 32 0) [7]).result = .panicked := by decide
  refine ⟨⟨by decide, rfl, hhuge⟩, ⟨by decide, by decide⟩, ⟨by decide, by decide⟩,
    ⟨by decide, by decide⟩, ?_⟩
  rintro ⟨out, hout, _⟩
  rw [hhuge] at hout
  cases hout

/-- C9, amended.  For a native response with status `FCPNoError` whose buffers
hold the lengths it announces (`IdsLen` within the capacity of `IdsPtr`,
`ChallengesLen` within the capacity of `ChallengesPtr`) and whose flat challenge
list `C` (the first `ChallengesLen` challenges) holds at least `IdsLen * s`
challenges for the stride `s`, the call returns an output whose `Sectors` equal
the ids list `I` (the first `IdsLen` ids) in the same order; the entry of an id
is the chunk `C[k*s .. (k+1)*s)` of its last occurrence `k`; when the ids are
pairwise distinct the map has exactly `IdsLen` keys and `Challenges[I[k]]` is
chunk `k` for every `k`; when an id occurs more than once the map has fewer
entries than `Sectors`. -/
theorem sectors_and_chunks (env : Env) (proofType : RegisteredPoStProof)
    (minerID : ActorID) (randomness : PoStRandomness) (sectorIds : List SectorNumber)
    (proverID : Fil32ByteArray) (pp : FilRegisteredPoStProof)
    (resp : FilGenerateFallbackSectorChallengesResponse)
    (hprover : env.toProverID minerID = .ok proverID)
    (hpp : env.toFilRegisteredPoStProof proofType = .ok pp)
    (hresp : challengesResponse env pp proverID randomness sectorIds = resp)
    (hstatus : resp.StatusCode = .FCPNoError)
    (hids : resp.IdsLen ≤ resp.IdsPtr.cap)
    (hchallenges : resp.ChallengesLen ≤ resp.ChallengesPtr.cap)
    (hflat : resp.IdsLen * resp.ChallengesStride ≤ resp.ChallengesLen) :
    ∃ out,
      (GeneratePoStFallbackSectorChallenges env proofType minerID randomness sectorIds).result
        = .returned (some out) none ∧
      out.Sectors = resp.IdsPtr.mem.take resp.IdsLen ∧
      out.Sectors.length = resp.IdsLen ∧
      (∀ k key, k < resp.IdsLen → out.Sectors[k]? = some key →
        (∀ j, k < j → j < resp.IdsLen → out.Sectors[j]? ≠ some key) →
        out.Challenges.load key
          = some ((((resp.ChallengesPtr.mem.take resp.ChallengesLen).drop
              (k * resp.ChallengesStride)).take resp.ChallengesStride))) ∧
      (out.Sectors.Nodup →
        out.Challenges.len = resp.IdsLen ∧
        ∀ k key, k < resp.IdsLen → out.Sectors[k]? = some key →
          out.Challenges.load key
            = some ((((resp.ChallengesPtr.mem.take resp.ChallengesLen).drop
                (k * resp.ChallengesStride)).take resp.ChallengesStride))) ∧
      (¬ out.Sectors.Nodup → out.Challenges.len < out.Sectors.length) := by
  obtain ⟨out, hout⟩ := copyChallenges_returns hids hchallenges hstatus hflat
  have hinv := copyChallenges_inv hout
  have hsec : out.Sectors = resp.IdsPtr.mem.take resp.IdsLen := hinv.sectors_eq
  have hget : ∀ k, k < resp.IdsLen → out.Sectors[k]? = resp.IdsPtr.mem[k]? := by
    intro k hk
    rw [hsec, List.getElem?_take_of_lt hk]
  have hlast : ∀ k key, k < resp.IdsLen → out.Sectors[k]? = some key →
      (∀ j, k < j → j < resp.IdsLen → out.Sectors[j]? ≠ some key) →
      out.Challenges.load key
        = some ((((resp.ChallengesPtr.mem.take resp.ChallengesLen).drop
            (k * resp.ChallengesStride)).take resp.ChallengesStride)) := by
    intro k key hk hkey hno
    rw [hget k hk] at hkey
    have hle : (k + 1) * resp.ChallengesStride ≤ resp.ChallengesLen :=
      le_trans (Nat.mul_le_mul_right _ hk) hflat
    have hchunk := @chunkAt_eq_of_le ⟨resp.ChallengesPtr.mem, resp.ChallengesLen⟩ _ _ _ hle
    simp only at hchunk
    rw [← hchunk]
    refine hinv.load_last k hk ?_ key hkey
    intro j hj1 hj2
    have := hno j hj1 hj2
    rw [hget j hj2] at this
    simp only
    rw [hkey]
    exact this
  have hkeys : out.Challenges.len = (out.Sectors).dedup.length := by
    unfold GoMap.len
    rw [← List.length_map out.Challenges Prod.fst, hsec]
    exact length_of_keys hinv.keys_nodup hinv.keys_mem
  refine ⟨out, ?_, hsec, hinv.sectors_length, hlast, ?_, ?_⟩
  · rw [GeneratePoStFallbackSectorChallenges_of_ok randomness sectorIds hprover hpp, hresp]
    exact hout
  · intro hnodup
    refine ⟨?_, ?_⟩
    · rw [hkeys, List.dedup_eq_self.mpr hnodup]
      exact hinv.sectors_length
    · intro k key hk hkey
      refine hlast k key hk hkey ?_
      intro j hj1 hj2 hj
      have hjl : j < out.Sectors.length := by rw [hinv.sectors_length]; exact hj2
      have hkl : k < out.Sectors.length := by rw [hinv.sectors_length]; exact hk
      rw [List.getElem?_eq_getElem hjl] at hj
      rw [List.getElem?_eq_getElem hkl] at hkey
      have heq : out.Sectors[j] = out.Sectors[k] := by
        simp only [Option.some.injEq] at hj hkey
        rw [hj, hkey]
      have := (List.Nodup.getElem_inj_iff hnodup).mp heq
      omega
  · intro hdup
    rw [hkeys]
    exact dedup_length_lt hdup

/-- Witness for C9: sectors `[3, 4, 3]` in the sample environment; sector `3`
occurs twice and keeps the chunk of its second occurrence. -/
theorem sectors_and_chunks_witness :
    ∃ out,
      (GeneratePoStFallbackSectorChallenges sampleEnv 3 1000 (List.replicate 32 0)
        [3, 4, 3]).result = .returned (some out) none ∧
      out.Sectors = [3, 4, 3] ∧
      out.Sectors.length = 3 ∧
      (∀ k key, k < 3 → out.Sectors[k]? = some key →
        (∀ j, k < j → j < 3 → out.Sectors[j]? ≠ some key) →
        out.Challenges.load key = some ((([4, 3, 5, 14, 4, 23].take 6).drop (k * 2)).take 2)) ∧
      (out.Sectors.Nodup →
        out.Challenges.len = 3 ∧
        ∀ k key, k < 3 → out.Sectors[k]? = some key →
          out.Challenges.load key
            = some ((([4, 3, 5, 14, 4, 23].take 6).drop (k * 2)).take 2)) ∧
      (¬ out.Sectors.Nodup → out.Challenges.len < out.Sectors.length) :=
  sectors_and_chunks sampleEnv 3 1000 (List.replicate 32 0) [3, 4, 3] [232, 3] 103
    (sampleChallenges [3, 4, 3]) rfl rfl rfl rfl (by decide) (by decide) (by decide)

/-- C10. The copy loop never indexes out of range when the challenge buffer is
long enough.  For every response whose `ChallengesLen` is at least
`IdsLen * ChallengesStride`: the call panics nowhere but in the reslices of
lines 47-48, which come before the loop; and in the loop, which runs on the
resliced buffers `ids` and `challenges`, every iteration `idx < IdsLen` finds
its chunk `challenges[idx*stride:(idx+1)*stride]` within the first
`ChallengesLen` elements and does not panic, the loop runs to its end, and
with status `FCPNoError` the call returns.  And for some response with
`ChallengesLen < IdsLen * ChallengesStride` the slice is out of bounds and the
operation panics instead of returning an error: so for every response with a
sector and a stride of `2 ^ 63` or more, whatever the capacity of its buffers,
and so for a response whose buffer of capacity one is to hold a chunk of two. -/
theorem copy_loop_bounds :
    (∀ (resp : FilGenerateFallbackSectorChallengesResponse),
      resp.IdsLen * resp.ChallengesStride ≤ resp.ChallengesLen →
      (copyChallenges resp = .panicked →
        resp.IdsPtr.cap < resp.IdsLen ∨ resp.ChallengesPtr.cap < resp.ChallengesLen) ∧
      ∀ (ids challenges : Slice),
      resp.IdsPtr.upTo resp.IdsLen = some ids →
      resp.ChallengesPtr.upTo resp.ChallengesLen = some challenges →
      (∀ idx, idx < resp.IdsLen →
        (idx + 1) * resp.ChallengesStride ≤ challenges.len ∧
        (∃ chunk, challenges.slice (intMul (idx : Int) (intOfUint resp.ChallengesStride))
            (intMul (intAdd (idx : Int) 1) (intOfUint resp.ChallengesStride)) = some chunk ∧
          chunk.toList = ((challenges.toList.drop (idx * resp.ChallengesStride)).take
            resp.ChallengesStride)) ∧
        ∀ out, ∃ out',
          copyStep ids challenges (intOfUint resp.ChallengesStride) out idx = some out') ∧
      (∃ out, copyLoop ids challenges resp.IdsLen (intOfUint resp.ChallengesStride)
        = some out) ∧
      (resp.StatusCode = .FCPNoError →
        ∃ out, copyChallenges resp = .returned (some out) none)) ∧
    (∀ (resp : FilGenerateFallbackSectorChallengesResponse),
      resp.StatusCode = .FCPNoError →
      0 < resp.IdsLen →
      2 ^ 63 ≤ resp.ChallengesStride →
      copyChallenges resp = .panicked ∧
      (resp.ChallengesLen ≤ resp.ChallengesPtr.cap →
        resp.ChallengesLen < resp.IdsLen * resp.ChallengesStride)) ∧
    (∃ resp : FilGenerateFallbackSectorChallengesResponse,
      resp.StatusCode = .FCPNoError ∧
      resp.ChallengesLen < resp.IdsLen * resp.ChallengesStride ∧
      challengesResponse (answeringEnv hugeStrideResponse) 103 [232, 3] (List.replicate 32 0)
        [7] = resp ∧
      (GeneratePoStFallbackSectorChallenges (answeringEnv hugeStrideResponse) 3 1000
        (List.replicate 32 0) [7]).result = .panicked) ∧
    (∃ resp : FilGenerateFallbackSectorChallengesResponse,
      resp.StatusCode = .FCPNoError ∧
      resp.ChallengesLen < resp.IdsLen * resp.ChallengesStride ∧
      challengesResponse (answeringEnv shortBufferResponse) 103 [232, 3] (List.replicate 32 0)
        [7] = resp ∧
      (GeneratePoStFallbackSectorChallenges (answeringEnv shortBufferResponse) 3 1000
        (List.replicate 32 0) [7]).result = .panicked) := by
  refine ⟨?_, ?_, ⟨hugeStrideResponse, by decide, by decide, rfl, by decide⟩,
    ⟨shortBufferResponse, by decide, by decide, rfl, by decide⟩⟩
  · intro resp hlen
    refine ⟨?_, ?_⟩
    · intro hpanic
      by_contra hfit
      have hidsfit : resp.IdsLen ≤ resp.IdsPtr.cap := by omega
      have hchfit : resp.ChallengesLen ≤ resp.ChallengesPtr.cap := by omega
      by_cases hst : resp.StatusCode = .FCPNoError
      · obtain ⟨out, hout⟩ := copyChallenges_returns hidsfit hchfit hst hlen
        rw [hout] at hpanic
        cases hpanic
      · rw [copyChallenges_error resp hidsfit hchfit hst] at hpanic
        cases hpanic
    intro ids challenges hids hch
    obtain ⟨hidsfit, hidseq⟩ := Slice.upTo_some hids
    obtain ⟨hchfit, hcheq⟩ := Slice.upTo_some hch
    subst hidseq hcheq
    have hcap := resp.challenges_cap
    refine ⟨?_, ?_, ?_⟩
    · intro idx hidx
      have hle : (idx + 1) * resp.ChallengesStride ≤ resp.ChallengesLen :=
        le_trans (Nat.mul_le_mul_right _ hidx) hlen
      refine ⟨hle, ?_, ?_⟩
      · exact @Slice.slice_chunk ⟨resp.ChallengesPtr.mem, resp.ChallengesLen⟩ _ _ _ hle hchfit hcap
      · intro out
        exact @copyStep_ok ⟨resp.IdsPtr.mem, resp.IdsLen⟩
          ⟨resp.ChallengesPtr.mem, resp.ChallengesLen⟩ _ _ _ out hidsfit hidx hle hchfit hcap
    · exact @copyLoop_total ⟨resp.IdsPtr.mem, resp.IdsLen⟩
        ⟨resp.ChallengesPtr.mem, resp.ChallengesLen⟩ resp.ChallengesStride resp.ChallengesLen
        hidsfit hlen hchfit hcap resp.IdsLen (le_refl _)
    · intro hst
      exact copyChallenges_returns hidsfit hchfit hst hlen
  · intro resp hst hn hS
    have hcap := resp.challenges_cap
    have hmul : resp.ChallengesStride ≤ resp.IdsLen * resp.ChallengesStride :=
      Nat.le_mul_of_pos_left _ hn
    refine ⟨?_, fun hch => by omega⟩
    by_cases hfit : resp.IdsLen ≤ resp.IdsPtr.cap ∧ resp.ChallengesLen ≤ resp.ChallengesPtr.cap
    · rw [copyChallenges_loop resp hfit.1 hfit.2 hst,
        @copyLoop_negative_stride ⟨resp.IdsPtr.mem, resp.IdsLen⟩
          ⟨resp.ChallengesPtr.mem, resp.ChallengesLen⟩ resp.ChallengesStride resp.IdsLen
          hn hS resp.stride_uint]
    · exact copyChallenges_overlong resp (by omega)

/-- Witness for C10: chunk `2` of the response of the sample environment for
sectors `[3, 4, 3]` (six challenges, stride two). -/
theorem copy_loop_bounds_witness :
    (2 + 1) * 2 ≤ 6 ∧
    (∃ chunk, Slice.slice ⟨[4, 3, 5, 14, 4, 23], 6⟩
        (intMul ((2 : Nat) : Int) (intOfUint 2))
        (intMul (intAdd ((2 : Nat) : Int) 1) (intOfUint 2)) = some chunk ∧
      chunk.toList = ((Slice.toList ⟨[4, 3, 5, 14, 4, 23], 6⟩).drop (2 * 2)).take 2) ∧
    ∀ out, ∃ out',
      copyStep ⟨[3, 4, 3], 3⟩ ⟨[4, 3, 5, 14, 4, 23], 6⟩ (intOfUint 2) out 2 = some out' :=
  ((copy_loop_bounds.1 (sampleChallenges [3, 4, 3]) (by decide)).2 ⟨[3, 4, 3], 3⟩
    ⟨[4, 3, 5, 14, 4, 23], 6⟩ rfl rfl).1 2 (by decide)

/-! ## Claims about all six functions -/

/-- Counterexample to C3 as stated: with conversions that succeed and a native
response whose status is not `FCPNoError`, `GenerateWinningPoStWithVanilla`
panics at the allocation of line 120 when the response announces `2 ^ 63`
proofs, and `GeneratePoStFallbackSectorChallenges` panics at the reslice of
line 47 when the response announces `2 ^ 63` ids: neither returns an error. -/
theorem fail_atomically_counterexample :
    (sampleToFilRegisteredPoStProof 3 = .ok 103 ∧ sampleToProverID 1000 = .ok [232, 3]) ∧
    ((winningResponse overlongFailureEnv 103 [232, 3] (List.replicate 32 0)
        [[1, 2]]).StatusCode ≠ .FCPNoError ∧
      (GenerateWinningPoStWithVanilla overlongFailureEnv 3 1000 (List.replicate 32 0)
        [[1, 2]]).result = .panicked ∧
      ∀ err, (GenerateWinningPoStWithVanilla overlongFailureEnv 3 1000 (List.replicate 32 0)
        [[1, 2]]).result ≠ .returned none (some err)) ∧
    ((challengesResponse overlongFailureEnv 103 [232, 3] (List.replicate 32 0)
        [7]).StatusCode ≠ .FCPNoError ∧
      (GeneratePoStFallbackSectorChallenges overlongFailureEnv 3 1000 (List.replicate 32 0)
        [7]).result = .panicked ∧
      ∀ err, (GeneratePoStFallbackSectorChallenges overlongFailureEnv 3 1000
        (List.replicate 32 0) [7]).result ≠ .returned none (some err)) := by
  have hw : (GenerateWinningPoStWithVanilla overlongFailureEnv 3 1000 (List.replicate 32 0)
      [[1, 2]]).result = .panicked := by decide
  have hc : (GeneratePoStFallbackSectorChallenges overlongFailureEnv 3 1000
      (List.replicate 32 0) [7]).result = .panicked := by decide
  refine ⟨⟨rfl, rfl⟩, ⟨by decide, hw, ?_⟩, ⟨by decide, hc, ?_⟩⟩
  · intro err h
    rw [hw] at h
    cases h
  · intro err h
    rw [hc] at h
    cases h

/-- C3, amended.  Every function fails without an artifact.  For each of the
six functions, once the conversions have succeeded and the native routine has
answered with a status other than `FCPNoError`, the call yields no artifact.
`GenerateSingleVanillaProof`, `GenerateWindowPoStWithVanilla`,
`GenerateSinglePartitionWindowPoStWithVanilla` and
`MergeWindowPoStPartitionProofs` check the status first and return a non-nil
error (built from the response's message) with a nil slice, a nil pointer or
the zero-value `PoStProof`.  `GeneratePoStFallbackSectorChallenges` reslices the
two buffers (lines 47-48) and `GenerateWinningPoStWithVanilla` allocates
`ProofsLen` proofs (lines 120-121) before the status check: they return that
error with a nil pointer or a nil slice when `IdsLen` and `ChallengesLen` are
within the capacities of the buffers, respectively when `ProofsLen` is within
what `make` allocates, and panic otherwise; in neither case is an artifact
returned.  And a call of any of the six functions that returns a nil error had
a response with status `FCPNoError`. -/
theorem fail_atomically (env : Env) :
    (∀ proofType minerID randomness sectorIds proverID pp,
      env.toProverID minerID = .ok proverID →
      env.toFilRegisteredPoStProof proofType = .ok pp →
      (challengesResponse env pp proverID randomness sectorIds).StatusCode ≠ .FCPNoError →
      (∀ out err,
        (GeneratePoStFallbackSectorChallenges env proofType minerID randomness sectorIds).result
          ≠ .returned (some out) err) ∧
      ((challengesResponse env pp proverID randomness sectorIds).IdsLen
          ≤ (challengesResponse env pp proverID randomness sectorIds).IdsPtr.cap →
        (challengesResponse env pp proverID randomness sectorIds).ChallengesLen
          ≤ (challengesResponse env pp proverID randomness sectorIds).ChallengesPtr.cap →
        (GeneratePoStFallbackSectorChallenges env proofType minerID randomness sectorIds).result
          = .returned none (some (errors.New
              (challengesResponse env pp proverID randomness sectorIds).ErrorMsg))) ∧
      ((challengesResponse env pp proverID randomness sectorIds).IdsPtr.cap
          < (challengesResponse env pp proverID randomness sectorIds).IdsLen ∨
        (challengesResponse env pp proverID randomness sectorIds).ChallengesPtr.cap
          < (challengesResponse env pp proverID randomness sectorIds).ChallengesLen →
        (GeneratePoStFallbackSectorChallenges env proofType minerID randomness sectorIds).result
          = .panicked)) ∧
    (∀ proofType minerID randomness sectorIds v,
      (GeneratePoStFallbackSectorChallenges env proofType minerID randomness sectorIds).result
        = .returned v none →
      ∃ proverID pp, env.toProverID minerID = .ok proverID ∧
        env.toFilRegisteredPoStProof proofType = .ok pp ∧
        (challengesResponse env pp proverID randomness sectorIds).StatusCode = .FCPNoError) ∧
    (∀ replica challange rep,
      env.toFilPrivateReplicaInfo replica = .ok rep →
      (env.FilGenerateSingleVanillaProof rep challange challange.length).StatusCode
        ≠ .FCPNoError →
      (GenerateSingleVanillaProof env replica challange).result
        = .returned none (some (errors.New
            (env.FilGenerateSingleVanillaProof rep challange challange.length).ErrorMsg))) ∧
    (∀ replica challange v,
      (GenerateSingleVanillaProof env replica challange).result = .returned v none →
      ∃ rep, env.toFilPrivateReplicaInfo replica = .ok rep ∧
        (env.FilGenerateSingleVanillaProof rep challange challange.length).StatusCode
          = .FCPNoError) ∧
    (∀ proofType minerID randomness proofs pp proverID,
      env.toFilRegisteredPoStProof proofType = .ok pp →
      env.toProverID minerID = .ok proverID →
      (winningResponse env pp proverID randomness proofs).StatusCode ≠ .FCPNoError →
      (∀ out err,
        (GenerateWinningPoStWithVanilla env proofType minerID randomness proofs).result
          ≠ .returned (some out) err) ∧
      ((winningResponse env pp proverID randomness proofs).ProofsLen ≤ env.maxProofsLen →
        (GenerateWinningPoStWithVanilla env proofType minerID randomness proofs).result
          = .returned none (some (errors.New
              (winningResponse env pp proverID randomness proofs).ErrorMsg))) ∧
      (env.maxProofsLen < (winningResponse env pp proverID randomness proofs).ProofsLen →
        (GenerateWinningPoStWithVanilla env proofType minerID randomness proofs).result
          = .panicked)) ∧
    (∀ proofType minerID randomness proofs v,
      (GenerateWinningPoStWithVanilla env proofType minerID randomness proofs).result
        = .returned v none →
      ∃ pp proverID, env.toFilRegisteredPoStProof proofType = .ok pp ∧
        env.toProverID minerID = .ok proverID ∧
        (winningResponse env pp proverID randomness proofs).StatusCode = .FCPNoError) ∧
    (∀ proofType minerID randomness proofs pp proverID,
      env.toFilRegisteredPoStProof proofType = .ok pp →
      env.toProverID minerID = .ok proverID →
      (env.FilGenerateWindowPostWithVanilla pp (env.to32ByteArray randomness) proverID
        (env.toVanillaProofs proofs) proofs.length).StatusCode ≠ .FCPNoError →
      (GenerateWindowPoStWithVanilla env proofType minerID randomness proofs).result
        = .returned ⟨0, []⟩ (some (errors.New
            (env.FilGenerateWindowPostWithVanilla pp (env.to32ByteArray randomness) proverID
              (env.toVanillaProofs proofs) proofs.length).ErrorMsg))) ∧
    (∀ proofType minerID randomness proofs v,
      (GenerateWindowPoStWithVanilla env proofType minerID randomness proofs).result
        = .returned v none →
      ∃ pp proverID, env.toFilRegisteredPoStProof proofType = .ok pp ∧
        env.toProverID minerID = .ok proverID ∧
        (env.FilGenerateWindowPostWithVanilla pp (env.to32ByteArray randomness) proverID
          (env.toVanillaProofs proofs) proofs.length).StatusCode = .FCPNoError) ∧
    (∀ proofType minerID randomness proofs partitionIndex pp proverID,
      env.toFilRegisteredPoStProof proofType = .ok pp →
      env.toProverID minerID = .ok proverID →
      (env.FilGenerateSingleWindowPostWithVanilla pp (env.to32ByteArray randomness) proverID
        (env.toVanillaProofs proofs) proofs.length partitionIndex).StatusCode ≠ .FCPNoError →
      (GenerateSinglePartitionWindowPoStWithVanilla env proofType minerID randomness proofs
        partitionIndex).result
        = .returned none (some (errors.New
            (env.FilGenerateSingleWindowPostWithVanilla pp (env.to32ByteArray randomness)
              proverID (env.toVanillaProofs proofs) proofs.length partitionIndex).ErrorMsg))) ∧
    (∀ proofType minerID randomness proofs partitionIndex v,
      (GenerateSinglePartitionWindowPoStWithVanilla env proofType minerID randomness proofs
        partitionIndex).result = .returned v none →
      ∃ pp proverID, env.toFilRegisteredPoStProof proofType = .ok pp ∧
        env.toProverID minerID = .ok proverID ∧
        (env.FilGenerateSingleWindowPostWithVanilla pp (env.to32ByteArray randomness) proverID
          (env.toVanillaProofs proofs) proofs.length partitionIndex).StatusCode
          = .FCPNoError) ∧
    (∀ proofType partitionProofs pp fproofs,
      env.toFilRegisteredPoStProof proofType = .ok pp →
      env.toPartitionProofs partitionProofs = .ok fproofs →
      (env.FilMergeWindowPostPartitionProofs pp fproofs fproofs.length).StatusCode
        ≠ .FCPNoError →
      (MergeWindowPoStPartitionProofs env proofType partitionProofs).result
        = .returned none (some (errors.New
            (env.FilMergeWindowPostPartitionProofs pp fproofs fproofs.length).ErrorMsg))) ∧
    (∀ proofType partitionProofs v,
      (MergeWindowPoStPartitionProofs env proofType partitionProofs).result
        = .returned v none →
      ∃ pp fproofs, env.toFilRegisteredPoStProof proofType = .ok pp ∧
        env.toPartitionProofs partitionProofs = .ok fproofs ∧
        (env.FilMergeWindowPostPartitionProofs pp fproofs fproofs.length).StatusCode
          = .FCPNoError) := by
  refine ⟨?_, ?_, ?_, ?_, ?_, ?_, ?_, ?_, ?_, ?_, ?_, ?_⟩
  · intro proofType minerID randomness sectorIds proverID pp hprover hpp hst
    rw [GeneratePoStFallbackSectorChallenges_of_ok randomness sectorIds hprover hpp]
    exact ⟨copyChallenges_no_artifact hst,
      fun hids hch => copyChallenges_error _ hids hch hst,
      copyChallenges_overlong _⟩
  · intro proofType minerID randomness sectorIds v h
    obtain ⟨proverID, pp, hprover, hpp, hcopy⟩ :=
      GeneratePoStFallbackSectorChallenges_nil_error h
    exact ⟨proverID, pp, hprover, hpp, (copyChallenges_nil_error hcopy).1⟩
  · intro replica challange rep hrep hst
    rw [GenerateSingleVanillaProof_of_ok challange hrep]
    simp only [if_pos hst]
  · intro replica challange v h
    obtain ⟨rep, hrep⟩ := GenerateSingleVanillaProof_nil_error h
    refine ⟨rep, hrep, ?_⟩
    rw [GenerateSingleVanillaProof_of_ok challange hrep] at h
    by_contra hst
    simp only [if_pos hst] at h
    simp at h
  · intro proofType minerID randomness proofs pp proverID hpp hprover hst
    rw [GenerateWinningPoStWithVanilla_of_ok randomness proofs hpp hprover]
    exact ⟨copyWinningProofs_no_artifact hst,
      fun hlen => copyWinningProofs_error env _ hlen hst,
      copyWinningProofs_overlong env _⟩
  · intro proofType minerID randomness proofs v h
    obtain ⟨pp, proverID, hpp, hprover⟩ := conversions_ok_of_winning h
    refine ⟨pp, proverID, hpp, hprover, ?_⟩
    rw [GenerateWinningPoStWithVanilla_of_ok randomness proofs hpp hprover] at h
    exact copyWinningProofs_nil_error h
  · intro proofType minerID randomness proofs pp proverID hpp hprover hst
    rw [GenerateWindowPoStWithVanilla_of_ok randomness proofs hpp hprover]
    simp only [if_pos hst]
  · intro proofType minerID randomness proofs v h
    obtain ⟨pp, proverID, hpp, hprover⟩ := conversions_ok_of_window h
    refine ⟨pp, proverID, hpp, hprover, ?_⟩
    rw [GenerateWindowPoStWithVanilla_of_ok randomness proofs hpp hprover] at h
    by_contra hst
    simp only [if_pos hst] at h
    simp at h
  · intro proofType minerID randomness proofs partitionIndex pp proverID hpp hprover hst
    rw [GenerateSinglePartitionWindowPoStWithVanilla_of_ok randomness proofs partitionIndex
      hpp hprover]
    simp only [if_pos hst]
  · intro proofType minerID randomness proofs partitionIndex v h
    obtain ⟨pp, proverID, hpp, hprover⟩ := conversions_ok_of_partition h
    refine ⟨pp, proverID, hpp, hprover, ?_⟩
    rw [GenerateSinglePartitionWindowPoStWithVanilla_of_ok randomness proofs partitionIndex
      hpp hprover] at h
    by_contra hst
    simp only [if_pos hst] at h
    simp at h
  · intro proofType partitionProofs pp fproofs hpp hfproofs hst
    rw [MergeWindowPoStPartitionProofs_of_ok hpp hfproofs]
    simp only [if_pos hst]
  · intro proofType partitionProofs v h
    obtain ⟨pp, fproofs, hpp, hfproofs⟩ := conversions_ok_of_merge h
    refine ⟨pp, fproofs, hpp, hfproofs, ?_⟩
    rw [MergeWindowPoStPartitionProofs_of_ok hpp hfproofs] at h
    by_contra hst
    simp only [if_pos hst] at h
    simp at h

/-- Witness for C3: the environment whose native library always fails, for the
challenge function and for the window function. -/
theorem fail_atomically_witness :
    (GeneratePoStFallbackSectorChallenges failingEnv 3 1000 (List.replicate 32 0) [7]).result
      = .returned none (some (errors.New "native failure")) ∧
    (GenerateWindowPoStWithVanilla failingEnv 3 1000 (List.replicate 32 0) [[1, 2], [3]]).result
      = .returned ⟨0, []⟩ (some (errors.New "native failure")) :=
  ⟨((fail_atomically failingEnv).1 3 1000 (List.replicate 32 0) [7] [232, 3] 103 rfl rfl
      (by decide)).2.1 (by decide) (by decide),
    (fail_atomically failingEnv).2.2.2.2.2.2.1 3 1000 (List.replicate 32 0) [[1, 2], [3]]
      103 [232, 3] rfl rfl (by decide)⟩

/-- C7. A failed conversion ends the call before the native routine is
invoked: the call returns the conversion's error with no artifact and an empty
list of native calls.  `GeneratePoStFallbackSectorChallenges` converts the miner
ID first, so the miner-ID error wins when both conversions fail; the winning,
window and single-partition functions convert the proof type first, so there
the proof-type error wins; `MergeWindowPoStPartitionProofs` takes a proof type
only. -/
theorem conversion_errors_first (env : Env) :
    (∀ proofType minerID randomness sectorIds e,
      env.toProverID minerID = .error e →
      GeneratePoStFallbackSectorChallenges env proofType minerID randomness sectorIds
        = ⟨[], .returned none (some e)⟩) ∧
    (∀ proofType minerID randomness sectorIds proverID e,
      env.toProverID minerID = .ok proverID →
      env.toFilRegisteredPoStProof proofType = .error e →
      GeneratePoStFallbackSectorChallenges env proofType minerID randomness sectorIds
        = ⟨[], .returned none (some e)⟩) ∧
    (∀ proofType minerID randomness proofs e,
      env.toFilRegisteredPoStProof proofType = .error e →
      GenerateWinningPoStWithVanilla env proofType minerID randomness proofs
        = ⟨[], .returned none (some e)⟩) ∧
    (∀ proofType minerID randomness proofs pp e,
      env.toFilRegisteredPoStProof proofType = .ok pp →
      env.toProverID minerID = .error e →
      GenerateWinningPoStWithVanilla env proofType minerID randomness proofs
        = ⟨[], .returned none (some e)⟩) ∧
    (∀ proofType minerID randomness proofs e,
      env.toFilRegisteredPoStProof proofType = .error e →
      GenerateWindowPoStWithVanilla env proofType minerID randomness proofs
        = ⟨[], .returned ⟨0, []⟩ (some e)⟩) ∧
    (∀ proofType minerID randomness proofs pp e,
      env.toFilRegisteredPoStProof proofType = .ok pp →
      env.toProverID minerID = .error e →
      GenerateWindowPoStWithVanilla env proofType minerID randomness proofs
        = ⟨[], .returned ⟨0, []⟩ (some e)⟩) ∧
    (∀ proofType minerID randomness proofs partitionIndex e,
      env.toFilRegisteredPoStProof proofType = .error e →
      GenerateSinglePartitionWindowPoStWithVanilla env proofType minerID randomness proofs
        partitionIndex = ⟨[], .returned none (some e)⟩) ∧
    (∀ proofType minerID randomness proofs partitionIndex pp e,
      env.toFilRegisteredPoStProof proofType = .ok pp →
      env.toProverID minerID = .error e →
      GenerateSinglePartitionWindowPoStWithVanilla env proofType minerID randomness proofs
        partitionIndex = ⟨[], .returned none (some e)⟩) ∧
    (∀ proofType partitionProofs e,
      env.toFilRegisteredPoStProof proofType = .error e →
      MergeWindowPoStPartitionProofs env proofType partitionProofs
        = ⟨[], .returned none (some e)⟩) := by
  refine ⟨?_, ?_, ?_, ?_, ?_, ?_, ?_, ?_, ?_⟩
  · intro proofType minerID randomness sectorIds e h
    unfold GeneratePoStFallbackSectorChallenges
    rw [h]
  · intro proofType minerID randomness sectorIds proverID e h1 h2
    unfold GeneratePoStFallbackSectorChallenges
    rw [h1, h2]
  · intro proofType minerID randomness proofs e h
    unfold GenerateWinningPoStWithVanilla
    rw [h]
  · intro proofType minerID randomness proofs pp e h1 h2
    unfold GenerateWinningPoStWithVanilla
    rw [h1, h2]
  · intro proofType minerID randomness proofs e h
    unfold GenerateWindowPoStWithVanilla
    rw [h]
  · intro proofType minerID randomness proofs pp e h1 h2
    unfold GenerateWindowPoStWithVanilla
    rw [h1, h2]
  · intro proofType minerID randomness proofs partitionIndex e h
    unfold GenerateSinglePartitionWindowPoStWithVanilla
    rw [h]
  · intro proofType minerID randomness proofs partitionIndex pp e h1 h2
    unfold GenerateSinglePartitionWindowPoStWithVanilla
    rw [h1, h2]
  · intro proofType partitionProofs e h
    unfold MergeWindowPoStPartitionProofs
    rw [h]

/-- Witness for C7: proof type `77` and miner ID `2 ^ 40` both fail to convert
in the sample environment; the challenge function reports the miner ID, the
window function the proof type, and neither calls the native library. -/
theorem conversion_errors_first_witness :
    GeneratePoStFallbackSectorChallenges sampleEnv 77 (2 ^ 40) (List.replicate 32 0) [1, 2]
      = ⟨[], .returned none (some ⟨"invalid miner id"⟩)⟩ ∧
    GenerateWindowPoStWithVanilla sampleEnv 77 (2 ^ 40) (List.replicate 32 0) [[1, 2], [3]]
      = ⟨[], .returned ⟨0, []⟩ (some ⟨"no mapping to C proof type"⟩)⟩ :=
  ⟨(conversion_errors_first sampleEnv).1 77 (2 ^ 40) (List.replicate 32 0) [1, 2]
      ⟨"invalid miner id"⟩ rfl,
    (conversion_errors_first sampleEnv).2.2.2.2.1 77 (2 ^ 40) (List.replicate 32 0)
      [[1, 2], [3]] ⟨"no mapping to C proof type"⟩ rfl⟩

/-! ## Claims decided by the collaborators

`distributed.go` compares no proof type, checks no list for emptiness and
combines no proofs: what these claims say is decided by the native routines and
the conversion helpers, which are modelled here from the specification
(`specEnv`). -/

/-- C4. With the collaborators as the specification describes them, every
successful call of `GenerateWindowPoStWithVanilla` with proof type `P` returns
a `PoStProof` tagged with `P`: its `PoStProof` field equals the `proofType`
argument. -/
theorem window_tag (prim : Primitives) (P : RegisteredPoStProof) (m : ActorID)
    (r : PoStRandomness) (proofs : List (List Nat)) (out : PoStProof)
    (hok : (GenerateWindowPoStWithVanilla (specEnv prim) P m r proofs).result
      = .returned out none) :
    out.PoStProof = P := by
  obtain ⟨pp, proverID, hpp, hprover⟩ := conversions_ok_of_window hok
  have hv := (specToFilRegisteredPoStProof_ok hpp).1
  have hm := (specToProverID_ok hprover).1
  rw [GenerateWindowPoStWithVanilla_spec prim r proofs hv hm] at hok
  by_cases hc : prim.partitionCount P proofs.length = 0
  · rw [if_pos hc] at hok
    cases hok
  · rw [if_neg hc] at hok
    cases hparts : partitionProofsUpTo
        (prim.provePartition P (specTo32ByteArray r) (prim.encodeProverID m)
          (specToVanillaProofs proofs))
        (prim.partitionCount P proofs.length) with
    | none =>
      rw [hparts] at hok
      cases hok
    | some parts =>
      rw [hparts] at hok
      cases hagg : prim.aggregate P parts with
      | none =>
        simp only [hagg] at hok
        cases hok
      | some bytes =>
        simp only [hagg, Result.returned.injEq, and_true] at hok
        rw [← hok]

/-- Witness for C4: three vanilla proofs under the sample primitives, proof
type `3`. -/
theorem window_tag_witness :
    (GenerateWindowPoStWithVanilla (specEnv samplePrimitives) 3 1000 (List.replicate 32 0)
        [[1, 2], [3], [4, 5]]).result = .returned ⟨3, [1, 2, 3, 4, 5]⟩ none ∧
      (⟨3, [1, 2, 3, 4, 5]⟩ : PoStProof).PoStProof = 3 :=
  ⟨by decide,
    window_tag samplePrimitives 3 1000 (List.replicate 32 0) [[1, 2], [3], [4, 5]]
      ⟨3, [1, 2, 3, 4, 5]⟩ (by decide)⟩

/-- C5. With the collaborators as the specification describes them,
`MergeWindowPoStPartitionProofs` fails with an `InvalidInput` error for every
call whose `partitionProofs` list is empty, whatever the proof type; for an
enumerated proof type the error is the one of the native routine, which the
function calls. -/
theorem merge_empty_invalid_input (prim : Primitives) (P : RegisteredPoStProof) :
    (MergeWindowPoStPartitionProofs (specEnv prim) P []).result
      = .returned none (some (errors.New ErrorKind.InvalidInput.message)) ∧
    (prim.validProofType P = true →
      (MergeWindowPoStPartitionProofs (specEnv prim) P []).calls
        = [.FilMergeWindowPostPartitionProofs]) := by
  by_cases hv : prim.validProofType P = true
  · have hpp : (specEnv prim).toFilRegisteredPoStProof P = .ok P :=
      specToFilRegisteredPoStProof_valid hv
    have hfps : (specEnv prim).toPartitionProofs [] = .ok [] := rfl
    refine ⟨?_, fun _ => ?_⟩
    · rw [MergeWindowPoStPartitionProofs_spec prim [] hv (fun p hp => by cases hp)]
      rfl
    · rw [MergeWindowPoStPartitionProofs_of_ok hpp hfps]
  · have hpp : (specEnv prim).toFilRegisteredPoStProof P
        = .error (errors.New ErrorKind.InvalidInput.message) :=
      specToFilRegisteredPoStProof_invalid hv
    refine ⟨?_, fun h => absurd h hv⟩
    unfold MergeWindowPoStPartitionProofs
    rw [hpp]

/-- Witness for C5: the sample primitives and proof type `3`. -/
theorem merge_empty_invalid_input_witness :
    (MergeWindowPoStPartitionProofs (specEnv samplePrimitives) 3 []).calls
      = [.FilMergeWindowPostPartitionProofs] :=
  (merge_empty_invalid_input samplePrimitives 3).2 (by decide)

/-- C6. With the collaborators as the specification describes them,
`GeneratePoStFallbackSectorChallenges` fails with an `InvalidInput` error for
every call whose `sectorIds` list is empty; it never returns a challenge set,
empty or not, for an empty sector list.  For a miner ID in range and an
enumerated proof type the error is the one of the native routine, which the
function calls. -/
theorem empty_sectors_invalid_input (prim : Primitives) (P : RegisteredPoStProof)
    (m : ActorID) (r : PoStRandomness) :
    (GeneratePoStFallbackSectorChallenges (specEnv prim) P m r []).result
      = .returned none (some (errors.New ErrorKind.InvalidInput.message)) ∧
    (∀ out err, (GeneratePoStFallbackSectorChallenges (specEnv prim) P m r []).result
      ≠ .returned (some out) err) ∧
    (m < prim.proverIDRange → prim.validProofType P = true →
      (GeneratePoStFallbackSectorChallenges (specEnv prim) P m r []).calls
        = [.FilGenerateFallbackSectorChallenges]) := by
  have hres : (GeneratePoStFallbackSectorChallenges (specEnv prim) P m r []).result
      = .returned none (some (errors.New ErrorKind.InvalidInput.message)) := by
    by_cases hm : m < prim.proverIDRange
    · have hprover : (specEnv prim).toProverID m = .ok (prim.encodeProverID m) :=
        specToProverID_inRange hm
      by_cases hv : prim.validProofType P = true
      · have hpp : (specEnv prim).toFilRegisteredPoStProof P = .ok P :=
          specToFilRegisteredPoStProof_valid hv
        rw [GeneratePoStFallbackSectorChallenges_of_ok r [] hprover hpp]
        exact copyChallenges_challengesFailure .InvalidInput
      · have hpp : (specEnv prim).toFilRegisteredPoStProof P
            = .error (errors.New ErrorKind.InvalidInput.message) :=
          specToFilRegisteredPoStProof_invalid hv
        unfold GeneratePoStFallbackSectorChallenges
        rw [hprover, hpp]
    · have hprover : (specEnv prim).toProverID m
          = .error (errors.New ErrorKind.InvalidInput.message) :=
        specToProverID_outOfRange hm
      unfold GeneratePoStFallbackSectorChallenges
      rw [hprover]
  refine ⟨hres, ?_, ?_⟩
  · intro out err h
    rw [hres] at h
    cases h
  · intro hm hv
    rw [GeneratePoStFallbackSectorChallenges_of_ok r [] (specToProverID_inRange hm)
      (specToFilRegisteredPoStProof_valid hv)]

/-- Witness for C6: the sample primitives, proof type `3` and miner `1000`. -/
theorem empty_sectors_invalid_input_witness :
    (GeneratePoStFallbackSectorChallenges (specEnv samplePrimitives) 3 1000
      (List.replicate 32 0) []).calls = [.FilGenerateFallbackSectorChallenges] :=
  (empty_sectors_invalid_input samplePrimitives 3 1000 (List.replicate 32 0)).2.2
    (by decide) (by decide)

/-- C8. With the collaborators as the specification describes them: whenever
`GenerateWindowPoStWithVanilla` returns a proof `w` for a proof type, miner ID,
randomness and vanilla-proof set, the valid partition indices are those below
the partition count, `GenerateSinglePartitionWindowPoStWithVanilla` returns a
partition proof for each of them, and `MergeWindowPoStPartitionProofs` on these
partition proofs in ascending order of index returns a `PoStProof` equal to `w`
(same proof type, same bytes).  Conversely, whenever the partition proofs of
all valid indices, in ascending order, merge to a proof `w`,
`GenerateWindowPoStWithVanilla` returns `w` on the same vanilla-proof set. -/
theorem partitions_merge_eq_window (prim : Primitives) (P : RegisteredPoStProof)
    (m : ActorID) (r : PoStRandomness) (proofs : List (List Nat)) :
    (∀ w, (GenerateWindowPoStWithVanilla (specEnv prim) P m r proofs).result
        = .returned w none →
      ∃ parts : List PartitionProof,
        parts.length = prim.partitionCount P proofs.length ∧
        (∀ i, i < parts.length →
          (GenerateSinglePartitionWindowPoStWithVanilla (specEnv prim) P m r proofs i).result
            = .returned parts[i]? none) ∧
        (∀ i, parts.length ≤ i →
          (GenerateSinglePartitionWindowPoStWithVanilla (specEnv prim) P m r proofs i).result
            = .returned none
                (some (errors.New ErrorKind.PartitionIndexOutOfRange.message))) ∧
        (MergeWindowPoStPartitionProofs (specEnv prim) P parts).result
          = .returned (some w) none) ∧
    (∀ (parts : List PartitionProof) w,
      parts.length = prim.partitionCount P proofs.length →
      (∀ i, i < parts.length →
        (GenerateSinglePartitionWindowPoStWithVanilla (specEnv prim) P m r proofs i).result
          = .returned parts[i]? none) →
      (MergeWindowPoStPartitionProofs (specEnv prim) P parts).result
        = .returned (some w) none →
      (GenerateWindowPoStWithVanilla (specEnv prim) P m r proofs).result
        = .returned w none) := by
  constructor
  · intro w hok
    obtain ⟨pp, proverID, hpp, hprover⟩ := conversions_ok_of_window hok
    have hv := (specToFilRegisteredPoStProof_ok hpp).1
    have hm := (specToProverID_ok hprover).1
    rw [GenerateWindowPoStWithVanilla_spec prim r proofs hv hm] at hok
    by_cases hc : prim.partitionCount P proofs.length = 0
    · rw [if_pos hc] at hok
      cases hok
    · rw [if_neg hc] at hok
      cases hparts : partitionProofsUpTo
          (prim.provePartition P (specTo32ByteArray r) (prim.encodeProverID m)
            (specToVanillaProofs proofs))
          (prim.partitionCount P proofs.length) with
      | none =>
        rw [hparts] at hok
        cases hok
      | some bs =>
        rw [hparts] at hok
        cases hagg : prim.aggregate P bs with
        | none =>
          simp only [hagg] at hok
          cases hok
        | some bytes =>
          simp only [hagg, Result.returned.injEq, and_true] at hok
          obtain ⟨hlen, hget⟩ := partitionProofsUpTo_some _ bs hparts
          have hplen : (bs.map (fun b => (⟨P, b⟩ : PartitionProof))).length
              = prim.partitionCount P proofs.length := by
            rw [List.length_map, hlen]
          have hbytes : (bs.map (fun b => (⟨P, b⟩ : PartitionProof))).map
              (fun p => p.ProofBytes) = bs := by
            rw [List.map_map]
            exact List.map_id bs
          refine ⟨bs.map (fun b => ⟨P, b⟩), hplen, ?_, ?_, ?_⟩
          · intro i hi
            rw [hplen] at hi
            have hib : i < bs.length := by omega
            rw [GenerateSinglePartitionWindowPoStWithVanilla_spec prim r proofs i hv hm,
              if_neg (by omega), hget i hi, List.getElem?_map, List.getElem?_eq_getElem hib]
            rfl
          · intro i hi
            rw [hplen] at hi
            rw [GenerateSinglePartitionWindowPoStWithVanilla_spec prim r proofs i hv hm,
              if_pos hi]
          · have hvalid : ∀ p ∈ bs.map (fun b => (⟨P, b⟩ : PartitionProof)),
                prim.validProofType p.PoStProof = true := by
              intro p hp
              obtain ⟨b, _, hb⟩ := List.mem_map.mp hp
              rw [← hb]
              exact hv
            have hne : (bs.map (fun b => (⟨P, b⟩ : PartitionProof))).isEmpty = false := by
              cases bs with
              | nil => exact absurd hlen.symm hc
              | cons b bs' => rfl
            have hall : (bs.map (fun b => (⟨P, b⟩ : PartitionProof))).all
                (fun p => p.PoStProof == P) = true := by
              rw [List.all_eq_true]
              intro p hp
              obtain ⟨b, _, hb⟩ := List.mem_map.mp hp
              rw [← hb]
              exact beq_self_eq_true P
            rw [MergeWindowPoStPartitionProofs_spec prim _ hv hvalid, hne, hall, hbytes]
            simp only [Bool.false_eq_true, if_false, if_true, hagg, hok]
  · intro parts w hlen hsingle hmerge
    obtain ⟨pp, fps, hpp, hfps⟩ := conversions_ok_of_merge hmerge
    have hv := (specToFilRegisteredPoStProof_ok hpp).1
    have hvalid := specToPartitionProofs_ok hfps
    rw [MergeWindowPoStPartitionProofs_spec prim parts hv hvalid] at hmerge
    by_cases he : parts.isEmpty = true
    · rw [if_pos he] at hmerge
      cases hmerge
    · rw [if_neg he] at hmerge
      by_cases ha : parts.all (fun p => p.PoStProof == P) = true
      · rw [if_pos ha] at hmerge
        have hpos : 0 < parts.length := by
          cases parts with
          | nil => exact absurd rfl he
          | cons p ps => exact Nat.succ_pos _
        obtain ⟨pp', proverID, _, hprover⟩ := conversions_ok_of_partition (hsingle 0 hpos)
        have hm := (specToProverID_ok hprover).1
        have hget : ∀ i, i < (parts.map (fun p => p.ProofBytes)).length →
            prim.provePartition P (specTo32ByteArray r) (prim.encodeProverID m)
              (specToVanillaProofs proofs) i = (parts.map (fun p => p.ProofBytes))[i]? := by
          intro i hi
          rw [List.length_map] at hi
          have hs := hsingle i hi
          rw [GenerateSinglePartitionWindowPoStWithVanilla_spec prim r proofs i hv hm,
            if_neg (by omega)] at hs
          rw [List.getElem?_eq_getElem hi] at hs
          rw [List.getElem?_map, List.getElem?_eq_getElem hi]
          cases hp : prim.provePartition P (specTo32ByteArray r) (prim.encodeProverID m)
              (specToVanillaProofs proofs) i with
          | none =>
            rw [hp] at hs
            cases hs
          | some b =>
            rw [hp] at hs
            simp only [Result.returned.injEq, Option.some.injEq, and_true] at hs
            rw [← hs]
            rfl
        have hup := partitionProofsUpTo_of_get _ hget
        rw [List.length_map, hlen] at hup
        rw [GenerateWindowPoStWithVanilla_spec prim r proofs hv hm, if_neg (by omega), hup]
        cases hagg : prim.aggregate P (parts.map (fun p => p.ProofBytes)) with
        | none =>
          rw [hagg] at hmerge
          cases hmerge
        | some bytes =>
          rw [hagg] at hmerge
          simp only [Result.returned.injEq, Option.some.injEq, and_true] at hmerge
          simp only [hagg]
          rw [hmerge]
      · rw [if_neg ha] at hmerge
        cases hmerge

/-- Witness for C8: three vanilla proofs under the sample primitives make two
partitions, whose proofs merge to the proof of the window. -/
theorem partitions_merge_eq_window_witness :
    (GenerateWindowPoStWithVanilla (specEnv samplePrimitives) 3 1000 (List.replicate 32 0)
      [[1, 2], [3], [4, 5]]).result = .returned ⟨3, [1, 2, 3, 4, 5]⟩ none ∧
    (GenerateSinglePartitionWindowPoStWithVanilla (specEnv samplePrimitives) 3 1000
      (List.replicate 32 0) [[1, 2], [3], [4, 5]] 0).result
      = .returned (some ⟨3, [1, 2, 3]⟩) none ∧
    (GenerateSinglePartitionWindowPoStWithVanilla (specEnv samplePrimitives) 3 1000
      (List.replicate 32 0) [[1, 2], [3], [4, 5]] 1).result
      = .returned (some ⟨3, [4, 5]⟩) none ∧
    (MergeWindowPoStPartitionProofs (specEnv samplePrimitives) 3
      [⟨3, [1, 2, 3]⟩, ⟨3, [4, 5]⟩]).result = .returned (some ⟨3, [1, 2, 3, 4, 5]⟩) none :=
  ⟨(partitions_merge_eq_window samplePrimitives 3 1000 (List.replicate 32 0)
      [[1, 2], [3], [4, 5]]).2 [⟨3, [1, 2, 3]⟩, ⟨3, [4, 5]⟩] ⟨3, [1, 2, 3, 4, 5]⟩ (by decide)
      (by decide) (by decide),
    by decide, by decide, by decide⟩

end ffi
